import Mathlib

/-!
Formal model of the RIFT creator-tipping backend's ledger-event
reconciliation pipeline, shallowly embedded from the Python sources:

  - backend/services/butki_service.py   (loyalty accrual, badge grants)
  - backend/services/bauni_service.py   (time-bound memberships)
  - backend/services/shawty_service.py  (transferable utility tokens)
  - backend/services/merch_service.py   (order settlement)
  - backend/services/listener_service.py (payload decoder, event router,
    checkpoint persistence, retry sweeper)
  - backend/db_models.py                (tables and unique constraints)

Modelling conventions:
  - Database tables are lists of row structures; an `async` service
    function becomes a pure function from the relevant state to the new
    state plus its return value.
  - `datetime` values are integer timestamps (seconds); `timedelta(days=30)`
    becomes `30 * 86400`.
  - Python floats for ALGO amounts are modelled as rationals.  All amounts
    appearing in the services are micro-ALGO integers divided by 1_000_000
    and small decimal constants (0.5, 2.0, 5.0, 1e-6), which are handled
    exactly both by rationals and by IEEE doubles at every input used in a
    theorem or counterexample below.
  - Operations whose session writes can violate a UNIQUE constraint declared
    in db_models.py are modelled as `Except Unit`: `.error ()` stands for the
    IntegrityError raised at flush/commit time, after which the surrounding
    savepoint rolls the write back, leaving the table unchanged.
  - On-chain minting and NFT delivery are external collaborators; a mint is
    modelled as succeeding and returning a caller-supplied fresh asset id.
    The `nfts` table is not part of the reward-ledger state the claims are
    about and is not modelled.
-/

deriving instance DecidableEq for Except

namespace RIFT

/-! ## Constants (butki_service.py, bauni_service.py, shawty_service.py,
domain/constants.py).  The memo constants are `MEMO_*_PREFIX` in the source;
the suffix is shortened here. -/

/-- `BUTKI_MIN_TIP_ALGO = 0.5` — minimum tip in ALGO for a loyalty increment. -/
def BUTKI_MIN_TIP_ALGO : ℚ := 1/2

/-- `BUTKI_BADGE_INTERVAL = 5` — every Nth tip earns a Butki badge. -/
def BUTKI_BADGE_INTERVAL : Nat := 5

/-- `BAUNI_COST_ALGO = 5.0` — membership price. -/
def BAUNI_COST_ALGO : ℚ := 5

/-- `BAUNI_VALIDITY_DAYS = 30`, as seconds (`timedelta(days=30)`). -/
def BAUNI_VALIDITY_SECONDS : Int := 30 * 86400

/-- `SHAWTY_COST_ALGO = 2.0` — utility-token price. -/
def SHAWTY_COST_ALGO : ℚ := 2

/-- `MEMO_ORDER_PREFIX = "ORDER:"` from domain/constants.py. -/
def MEMO_ORDER : String := "ORDER:"

/-- `MEMO_BAUNI_PREFIX = "MEMBERSHIP:BAUNI"` from domain/constants.py. -/
def MEMO_BAUNI : String := "MEMBERSHIP:BAUNI"

/-- `MEMO_SHAWTY_PREFIX = "PURCHASE:SHAWTY"` from domain/constants.py. -/
def MEMO_SHAWTY : String := "PURCHASE:SHAWTY"

/-- Micro-ALGO to ALGO, as in `amount_micro / 1_000_000`. -/
def microToAlgo (amountMicro : Nat) : ℚ := (amountMicro : ℚ) / 1000000

/-! ## Row types (db_models.py) -/

/-- Row of `fan_loyalty` (class FanLoyalty): per-(fan, creator) loyalty
counters.  UNIQUE (fan_wallet, creator_wallet). -/
structure FanLoyalty where
  fan_wallet : String
  creator_wallet : String
  tip_count : Nat
  total_tipped_micro : Nat
  butki_badges_earned : Nat
  last_badge_asset_id : Option Nat
deriving Repr, DecidableEq

/-- Row of `loyalty_tip_events` (class LoyaltyTipEvent): write-once
idempotency journal for loyalty increments.  UNIQUE (tx_id). -/
structure LoyaltyTipEvent where
  tx_id : String
  fan_wallet : String
  creator_wallet : String
  amount_micro : Nat
deriving Repr, DecidableEq

/-- Row of `memberships` (class Membership).  UNIQUE (fan_wallet,
creator_wallet, is_active) and UNIQUE (asset_id).  `id` is the primary key. -/
structure MembershipRow where
  id : Nat
  fan_wallet : String
  creator_wallet : String
  asset_id : Nat
  expires_at : Int
  is_active : Bool
  purchase_tx_id : Option String
  amount_paid_micro : Nat
deriving Repr, DecidableEq

/-- Row of `shawty_tokens` (class ShawtyToken).  UNIQUE (asset_id) and
UNIQUE (purchase_tx_id). -/
structure ShawtyTokenRow where
  asset_id : Nat
  owner_wallet : String
  creator_wallet : String
  purchase_tx_id : Option String
  amount_paid_micro : Nat
  is_burned : Bool
  is_locked : Bool
deriving Repr, DecidableEq

/-- Row of `orders` (class Order).  `status` is one of "PENDING_PAYMENT",
"PAID", "CANCELLED"; `shawty_asset_ids_used` is stored as a JSON list and
modelled decoded. -/
structure OrderRow where
  id : Int
  fan_wallet : String
  creator_wallet : String
  status : String
  total_algo : ℚ
  shawty_asset_ids_used : List Nat
  tx_id : Option String
  paid_at : Option Int
deriving Repr, DecidableEq

/-- Row of `order_items` (class OrderItem). -/
structure OrderItemRow where
  order_id : Int
  product_id : Int
  quantity : Nat
deriving Repr, DecidableEq

/-- Row of `products` (class Product); `stock_quantity = none` means
unlimited stock. -/
structure ProductRow where
  id : Int
  stock_quantity : Option Nat
deriving Repr, DecidableEq

/-- Row of `transactions` (class Transaction): a decoded, deduplicated
payment event.  UNIQUE (tx_id).  `memo` is nullable in the schema. -/
structure TxRecord where
  tx_id : String
  fan_wallet : String
  creator_wallet : String
  amount_micro : Nat
  memo : Option String
  processed : Bool
deriving Repr, DecidableEq

/-- The mutable reward-ledger state operated on by the event router. -/
structure RewardState where
  loyalty : List FanLoyalty
  tipEvents : List LoyaltyTipEvent
  memberships : List MembershipRow
  shawtyTokens : List ShawtyTokenRow
  orders : List OrderRow
  orderItems : List OrderItemRow
  products : List ProductRow
deriving Repr, DecidableEq

/-- Order status literal "PENDING_PAYMENT". -/
def ORDER_PENDING : String := "PENDING_PAYMENT"

/-- Order status literal "PAID". -/
def ORDER_PAID : String := "PAID"

/-! ## Butki loyalty service (butki_service.py) -/

/-- Return value of `record_tip` (the `loyalty_record` field of the Python
dict is the row itself and is omitted). -/
structure RecordTipResult where
  tip_count : Nat
  earned_badge : Bool
  badges_total : Nat
deriving Repr, DecidableEq

/-- Predicate for the (fan, creator) loyalty row. -/
def loyaltyFor (fan creator : String) (l : FanLoyalty) : Bool :=
  l.fan_wallet == fan && l.creator_wallet == creator

/-- The atomic UPDATE applied to the (fan, creator) loyalty row by
`record_tip`: `tip_count += 1`, `total_tipped_micro += amount`, and
`butki_badges_earned += 1` exactly when the new `tip_count` is a multiple
of `BUTKI_BADGE_INTERVAL`. -/
def loyaltyBump (amountMicro : Nat) (l : FanLoyalty) : FanLoyalty :=
  { l with
    tip_count := l.tip_count + 1
    total_tipped_micro := l.total_tipped_micro + amountMicro
    butki_badges_earned := l.butki_badges_earned +
      (if (l.tip_count + 1) % BUTKI_BADGE_INTERVAL == 0 then 1 else 0) }

/-- The zero loyalty row inserted by the insert-or-ignore step of
`record_tip` (`tip_count=0, total_tipped_micro=0, butki_badges_earned=0`). -/
def baseLoyaltyRow (fan creator : String) : FanLoyalty :=
  ⟨fan, creator, 0, 0, 0, none⟩

/-- The `INSERT .. ON CONFLICT (fan_wallet, creator_wallet) DO NOTHING`
upsert of the loyalty row in `record_tip`. -/
def ensureLoyaltyRow (fan creator : String) (ll : List FanLoyalty) :
    List FanLoyalty :=
  if ll.any (loyaltyFor fan creator) then ll
  else ll ++ [baseLoyaltyRow fan creator]

/-- The atomic UPDATE of `record_tip`, applied to the whole table (it is
keyed by the (fan, creator) WHERE clause). -/
def bumpLoyalty (fan creator : String) (amountMicro : Nat)
    (ll : List FanLoyalty) : List FanLoyalty :=
  ll.map (fun l => if loyaltyFor fan creator l then loyaltyBump amountMicro l else l)

/-- `butki_service.record_tip`: journal-guarded loyalty accrual.
Sequence in the source: qualify check; INSERT .. ON CONFLICT DO NOTHING into
the `loyalty_tip_events` journal (rowcount 0 means the tx was already
applied, in which case the current snapshot is returned unchanged);
insert-or-ignore of the `fan_loyalty` row; one atomic UPDATE; reload. -/
def record_tip (fan creator tx : String) (amountMicro : Nat)
    (s : RewardState) : RewardState × RecordTipResult :=
  if microToAlgo amountMicro < BUTKI_MIN_TIP_ALGO then
    (s, ⟨0, false, 0⟩)
  else if s.tipEvents.any (fun e => e.tx_id == tx) then
    match s.loyalty.find? (loyaltyFor fan creator) with
    | none => (s, ⟨0, false, 0⟩)
    | some l => (s, ⟨l.tip_count, false, l.butki_badges_earned⟩)
  else
    let s3 : RewardState :=
      { s with
        tipEvents := s.tipEvents ++ [⟨tx, fan, creator, amountMicro⟩]
        loyalty := bumpLoyalty fan creator amountMicro
          (ensureLoyaltyRow fan creator s.loyalty) }
    match s3.loyalty.find? (loyaltyFor fan creator) with
    | none => (s3, ⟨0, false, 0⟩)
    | some l =>
        (s3, ⟨l.tip_count, l.tip_count % BUTKI_BADGE_INTERVAL == 0,
              l.butki_badges_earned⟩)

/-- `butki_service.record_badge_asset`: store the ASA id of the most
recently minted badge on the (fan, creator) loyalty row. -/
def record_badge_asset (fan creator : String) (assetId : Nat)
    (s : RewardState) : RewardState :=
  { s with loyalty := s.loyalty.map (fun l =>
      if loyaltyFor fan creator l then { l with last_badge_asset_id := some assetId }
      else l) }

/-! ## Helper lemmas about keyed list updates (used for the UPDATE .. WHERE
statements, which map a guarded update over the table). -/

/-- A guarded map `if p x then g x else x` with `g` preserving the key
predicate commutes with `find?` on that predicate. -/
theorem find?_map_if {α : Type} (l : List α) (p : α → Bool) (g : α → α)
    (hkeep : ∀ x, p (g x) = p x) :
    (l.map fun x => if p x then g x else x).find? p
      = (l.find? p).map fun x => if p x then g x else x := by
  rw [List.find?_map]
  have hpf : (p ∘ fun x => if p x then g x else x) = p := by
    funext x
    by_cases h : p x
    · simp [Function.comp, h, hkeep]
    · simp [Function.comp, h]
  rw [hpf]

/-- The upsert-then-atomic-update sequence of `record_tip`, viewed through
`find?`: the (fan, creator) row afterwards is the bumped version of the row
before (or of the zero row if absent). -/
theorem bumpLoyalty_find? (fan creator : String) (amountMicro : Nat)
    (ll : List FanLoyalty) :
    (bumpLoyalty fan creator amountMicro (ensureLoyaltyRow fan creator ll)).find?
        (loyaltyFor fan creator)
      = some (loyaltyBump amountMicro
          ((ll.find? (loyaltyFor fan creator)).getD (baseLoyaltyRow fan creator))) := by
  have hkeep : ∀ x, loyaltyFor fan creator (loyaltyBump amountMicro x)
      = loyaltyFor fan creator x := fun _ => rfl
  unfold ensureLoyaltyRow bumpLoyalty
  by_cases hA : ll.any (loyaltyFor fan creator)
  · rw [if_pos hA, find?_map_if _ _ _ hkeep]
    obtain ⟨l₀, hl₀⟩ := Option.isSome_iff_exists.mp
      (List.find?_isSome.mpr (by simpa using List.any_eq_true.mp hA))
    have hp := List.find?_some hl₀
    rw [hl₀]
    simp [hp]
  · have hA' : ll.any (loyaltyFor fan creator) = false := by simpa using hA
    have hnone : ll.find? (loyaltyFor fan creator) = none :=
      List.find?_eq_none.mpr (by simpa using List.any_eq_false.mp hA')
    rw [if_neg hA, List.map_append, List.find?_append, find?_map_if _ _ _ hkeep,
      hnone]
    have hbase : loyaltyFor fan creator (baseLoyaltyRow fan creator) = true := by
      simp [loyaltyFor, baseLoyaltyRow]
    simp [hbase, hkeep]

/-- The empty database. -/
def emptyRewardState : RewardState := ⟨[], [], [], [], [], [], []⟩

/-- The (fan, creator) loyalty row of a state, defaulting to the zero row —
used only to state theorems. -/
def loyaltySnapshot (fan creator : String) (s : RewardState) : FanLoyalty :=
  (s.loyalty.find? (loyaltyFor fan creator)).getD (baseLoyaltyRow fan creator)

/-- Claim C2: for every qualifying tip (>= 0.5 ALGO = 500000 micro) recorded
with a fresh tx_id, `record_tip` bumps the (fan, creator) loyalty row by
exactly one tip, adding the amount, and increments `butki_badges_earned` by 1
iff the new `tip_count` is an exact multiple of `BUTKI_BADGE_INTERVAL = 5`;
the returned snapshot reports the new count and the badge decision.  In
particular 5 distinct qualifying payments of 0.5 ALGO each between the same
payer and payee yield `tip_count = 5` and `butki_badges_earned = 1`. -/
theorem c2_record_tip_badge_correctness :
    (∀ (fan creator tx : String) (amountMicro : Nat) (s : RewardState),
        ¬ microToAlgo amountMicro < BUTKI_MIN_TIP_ALGO →
        s.tipEvents.any (fun e => e.tx_id == tx) = false →
        (record_tip fan creator tx amountMicro s).1.loyalty.find? (loyaltyFor fan creator)
            = some (loyaltyBump amountMicro (loyaltySnapshot fan creator s))
          ∧ (record_tip fan creator tx amountMicro s).2.tip_count
            = (loyaltySnapshot fan creator s).tip_count + 1
          ∧ ((record_tip fan creator tx amountMicro s).2.earned_badge = true
              ↔ ((loyaltySnapshot fan creator s).tip_count + 1) % BUTKI_BADGE_INTERVAL = 0)
          ∧ (record_tip fan creator tx amountMicro s).2.badges_total
            = (loyaltySnapshot fan creator s).butki_badges_earned
              + (if ((loyaltySnapshot fan creator s).tip_count + 1) % BUTKI_BADGE_INTERVAL = 0
                 then 1 else 0))
      ∧ ((record_tip "F" "C" "t5" 500000
            ((record_tip "F" "C" "t4" 500000
              ((record_tip "F" "C" "t3" 500000
                ((record_tip "F" "C" "t2" 500000
                  ((record_tip "F" "C" "t1" 500000 emptyRewardState).1)).1)).1)).1)).1).loyalty
          = [⟨"F", "C", 5, 2500000, 1, none⟩] := by
  constructor
  · intro fan creator tx amt s hq hj
    have key := bumpLoyalty_find? fan creator amt s.loyalty
    refine ⟨?_, ?_, ?_, ?_⟩ <;>
      simp only [record_tip, if_neg hq, hj, Bool.false_eq_true, if_false, key,
        loyaltySnapshot, loyaltyBump] <;>
      simp [Nat.beq_eq]
  · norm_num [record_tip, emptyRewardState, microToAlgo, BUTKI_MIN_TIP_ALGO,
      bumpLoyalty, ensureLoyaltyRow, baseLoyaltyRow, loyaltyFor, loyaltyBump,
      BUTKI_BADGE_INTERVAL]
    decide

/-- Witness for C2 at a concrete input: a fresh qualifying 0.5 ALGO tip into
the empty database bumps the loyalty row to the singly-tipped row. -/
theorem c2_record_tip_badge_correctness_witness :
    (¬ microToAlgo 500000 < BUTKI_MIN_TIP_ALGO)
      ∧ (record_tip "F" "C" "t" 500000 emptyRewardState).1.loyalty.find?
            (loyaltyFor "F" "C")
          = some (loyaltyBump 500000 (loyaltySnapshot "F" "C" emptyRewardState)) :=
  ⟨by norm_num [microToAlgo, BUTKI_MIN_TIP_ALGO],
   (c2_record_tip_badge_correctness.1 "F" "C" "t" 500000 emptyRewardState
      (by norm_num [microToAlgo, BUTKI_MIN_TIP_ALGO]) (by decide)).1⟩

/-! ## Shawty token service (shawty_service.py) -/

/-- `shawty_service.register_purchase`: register a newly purchased token.
If a `purchase_tx_id` is supplied and a token with it already exists, the
existing row is returned unchanged; otherwise a new row is inserted. -/
def register_purchase (assetId : Nat) (owner creator : String)
    (purchaseTxId : Option String) (amountPaidMicro : Nat)
    (toks : List ShawtyTokenRow) : List ShawtyTokenRow × ShawtyTokenRow :=
  let fresh : ShawtyTokenRow :=
    ⟨assetId, owner, creator, purchaseTxId, amountPaidMicro, false, false⟩
  match purchaseTxId with
  | some t =>
      match toks.find? (fun tok => tok.purchase_tx_id == some t) with
      | some tok => (toks, tok)
      | none => (toks ++ [fresh], fresh)
  | none => (toks ++ [fresh], fresh)

/-- `shawty_service.lock_for_discount`: lock a token for a discount.  The
`_get_valid_token` helper fails (error dict, no mutation) when the token is
missing, not owned by the fan, burned, or already locked.  The `redemptions`
history row and `locked_at` timestamp are not part of the modelled state. -/
def lock_for_discount (assetId : Nat) (fan : String)
    (toks : List ShawtyTokenRow) : List ShawtyTokenRow × Bool :=
  match toks.find? (fun t => t.asset_id == assetId) with
  | none => (toks, false)
  | some t =>
      if t.owner_wallet != fan then (toks, false)
      else if t.is_burned then (toks, false)
      else if t.is_locked then (toks, false)
      else
        (toks.map (fun x =>
          if x.asset_id == assetId then { x with is_locked := true } else x), true)

/-! ## Merch order settlement (merch_service.py) -/

/-- The `1e-6` float tolerance in the settlement amount check
(`amount_algo + 1e-6 < order.total_algo`). -/
def SETTLE_EPSILON : ℚ := 1/1000000

/-- The row filter of `settle_order_payment`: the order must match id, fan
wallet and creator wallet. -/
def orderFor (orderId : Int) (fan creator : String) (o : OrderRow) : Bool :=
  o.id == orderId && o.fan_wallet == fan && o.creator_wallet == creator

/-- The inventory adjustment loop of `settle_order_payment`: for each order
item, decrement the product's stock when it is tracked and sufficient. -/
def adjustInventory (items : List OrderItemRow) (products : List ProductRow) :
    List ProductRow :=
  items.foldl (fun prods it =>
    prods.map (fun p =>
      if p.id == it.product_id then
        match p.stock_quantity with
        | some q =>
            if q ≥ it.quantity then { p with stock_quantity := some (q - it.quantity) }
            else p
        | none => p
      else p)) products

/-- `merch_service.settle_order_payment`: mark an order as paid when a
payment with memo ORDER:<id> is detected.  Returns False without mutating
anything when the order is missing (or fan/creator do not match), when the
status is not PENDING_PAYMENT, or when the observed amount is more than the
`1e-6` tolerance below the total; otherwise sets the order to PAID, records
the settlement tx id, adjusts inventory, and locks the Shawty tokens used
for the discount. -/
def settle_order_payment (now : Int) (orderId : Int) (fan creator : String)
    (amountAlgo : ℚ) (txId : String) (s : RewardState) : RewardState × Bool :=
  match s.orders.find? (orderFor orderId fan creator) with
  | none => (s, false)
  | some o =>
      if o.status != ORDER_PENDING then (s, false)
      else if amountAlgo + SETTLE_EPSILON < o.total_algo then (s, false)
      else
        let o2 : OrderRow :=
          { o with status := ORDER_PAID, tx_id := some txId, paid_at := some now }
        ({ s with
            orders := s.orders.map (fun x => if x.id == orderId then o2 else x)
            products := adjustInventory
              (s.orderItems.filter (fun it => it.order_id == o.id)) s.products
            shawtyTokens := o.shawty_asset_ids_used.foldl
              (fun ts aid => (lock_for_discount aid fan ts).1) s.shawtyTokens },
         true)

/-- After the settlement write, the (id, fan, creator) lookup finds the
updated row: the update maps every row with the settled id to the new row,
and rows with other ids cannot match the lookup. -/
theorem find?_settle_map (l : List OrderRow) (oid : Int) (f c : String)
    (o o2 : OrderRow)
    (hfind : l.find? (orderFor oid f c) = some o)
    (hid : o2.id = o.id) (hfan : o2.fan_wallet = o.fan_wallet)
    (hcr : o2.creator_wallet = o.creator_wallet) :
    (l.map (fun x => if x.id == oid then o2 else x)).find? (orderFor oid f c)
      = some o2 := by
  have hpo : orderFor oid f c o = true := List.find?_some hfind
  have ho : (o.id = oid ∧ o.fan_wallet = f) ∧ o.creator_wallet = c := by
    simpa [orderFor, Bool.and_eq_true, beq_iff_eq] using hpo
  have hpo2 : orderFor oid f c o2 = true := by
    simp [orderFor, hid, hfan, hcr, ho.1.1, ho.1.2, ho.2]
  induction l with
  | nil => simp at hfind
  | cons x xs ih =>
      by_cases hpx : orderFor oid f c x = true
      · have hx' : (x.id = oid ∧ x.fan_wallet = f) ∧ x.creator_wallet = c := by
          simpa [orderFor, Bool.and_eq_true, beq_iff_eq] using hpx
        have hx : x.id = oid := hx'.1.1
        rw [List.find?_cons_of_pos _ hpx] at hfind
        simp only [List.map_cons]
        rw [if_pos (by simpa [beq_iff_eq] using hx)]
        exact List.find?_cons_of_pos _ hpo2
      · rw [List.find?_cons_of_neg _ hpx] at hfind
        simp only [List.map_cons]
        by_cases hx : x.id = oid
        · rw [if_pos (by simpa [beq_iff_eq] using hx)]
          exact List.find?_cons_of_pos _ hpo2
        · rw [if_neg (by simpa [beq_iff_eq] using hx)]
          rw [List.find?_cons_of_neg _ hpx]
          exact ih hfind

/-- Claim C4, counterexample to the claim as stated: an order with total 1
ALGO is settled by an observed payment of 999999 micro-ALGO (0.999999 ALGO),
strictly below the total, because the amount check allows a `1e-6`
tolerance (`amount_algo + 1e-6 < total` is false here).  IEEE-double
arithmetic agrees with the exact rationals at this input
(`0.999999 + 1e-6 == 1.0` in Python). -/
theorem c4_settle_strictly_below_counterexample :
    microToAlgo 999999 < (1 : ℚ)
      ∧ (settle_order_payment 0 1 "F" "C" (microToAlgo 999999) "tx"
          { emptyRewardState with
            orders := [⟨1, "F", "C", ORDER_PENDING, 1, [], none, none⟩] }).2
        = true := by
  constructor
  · norm_num [microToAlgo]
  · norm_num [settle_order_payment, emptyRewardState, orderFor, ORDER_PENDING,
      ORDER_PAID, SETTLE_EPSILON, microToAlgo, adjustInventory, lock_for_discount]

/-- Claim C4 (amended): `settle_order_payment` transitions an order from
PENDING_PAYMENT to PAID exactly once, and only when the observed amount
covers the total up to the `1e-6` float tolerance.  Orders not in
PENDING_PAYMENT, and observed amounts more than the tolerance below the
total (`amount + 1e-6 < total`), return False and leave the whole state —
order row, inventory and Shawty locks — unchanged; after a successful
settlement, a second observation of the same order is a no-op. -/
theorem c4_settle_order_exactly_once :
    (∀ (now : Int) (oid : Int) (f c : String) (amt : ℚ) (t : String)
        (s : RewardState) (o : OrderRow),
        s.orders.find? (orderFor oid f c) = some o →
        o.status ≠ ORDER_PENDING →
        settle_order_payment now oid f c amt t s = (s, false))
    ∧ (∀ (now : Int) (oid : Int) (f c : String) (amt : ℚ) (t : String)
        (s : RewardState) (o : OrderRow),
        s.orders.find? (orderFor oid f c) = some o →
        amt + SETTLE_EPSILON < o.total_algo →
        settle_order_payment now oid f c amt t s = (s, false))
    ∧ (∀ (now₁ now₂ : Int) (oid : Int) (f c : String) (amt₁ amt₂ : ℚ)
        (t₁ t₂ : String) (s s' : RewardState),
        settle_order_payment now₁ oid f c amt₁ t₁ s = (s', true) →
        settle_order_payment now₂ oid f c amt₂ t₂ s' = (s', false))
    ∧ (∀ (now : Int) (oid : Int) (f c : String) (amt : ℚ) (t : String)
        (s : RewardState) (o : OrderRow),
        s.orders.find? (orderFor oid f c) = some o →
        o.status = ORDER_PENDING →
        ¬ amt + SETTLE_EPSILON < o.total_algo →
        (settle_order_payment now oid f c amt t s).2 = true
          ∧ (settle_order_payment now oid f c amt t s).1.orders.find?
              (orderFor oid f c)
            = some { o with status := ORDER_PAID, tx_id := some t,
                            paid_at := some now }) := by
  refine ⟨?_, ?_, ?_, ?_⟩
  · intro now oid f c amt t s o hf hst
    unfold settle_order_payment
    rw [hf]
    simp only [bne_iff_ne, ne_eq]
    rw [if_pos hst]
  · intro now oid f c amt t s o hf hamt
    unfold settle_order_payment
    rw [hf]
    by_cases hst : o.status = ORDER_PENDING
    · simp only [bne_iff_ne, ne_eq, hst, not_true_eq_false, if_false]
      rw [if_pos hamt]
    · simp only [bne_iff_ne, ne_eq]
      rw [if_pos hst]
  · intro now₁ now₂ oid f c amt₁ amt₂ t₁ t₂ s s' h
    unfold settle_order_payment at h
    cases hf : s.orders.find? (orderFor oid f c) with
    | none => rw [hf] at h; simp at h
    | some o =>
        rw [hf] at h
        by_cases hst : o.status = ORDER_PENDING
        · simp only [bne_iff_ne, ne_eq, hst, not_true_eq_false, if_false] at h
          by_cases hamt : amt₁ + SETTLE_EPSILON < o.total_algo
          · rw [if_pos hamt] at h; simp at h
          · rw [if_neg hamt] at h
            have hs' : s' = { s with
                orders := s.orders.map (fun x =>
                  if x.id == oid
                  then { o with status := ORDER_PAID, tx_id := some t₁,
                                paid_at := some now₁ }
                  else x)
                products := adjustInventory
                  (s.orderItems.filter (fun it => it.order_id == o.id)) s.products
                shawtyTokens := o.shawty_asset_ids_used.foldl
                  (fun ts aid => (lock_for_discount aid f ts).1) s.shawtyTokens } := by
              have h1 := congrArg Prod.fst h
              simpa using h1.symm
            have hfind2 : s'.orders.find? (orderFor oid f c)
                = some { o with status := ORDER_PAID, tx_id := some t₁,
                                paid_at := some now₁ } := by
              rw [hs']
              exact find?_settle_map s.orders oid f c o _ hf rfl rfl rfl
            unfold settle_order_payment
            rw [hfind2]
            simp [ORDER_PAID, ORDER_PENDING]
        · simp only [bne_iff_ne, ne_eq] at h
          rw [if_pos hst] at h; simp at h
  · intro now oid f c amt t s o hf hst hamt
    unfold settle_order_payment
    rw [hf]
    simp only [bne_iff_ne, ne_eq, hst, not_true_eq_false, if_false]
    rw [if_neg hamt]
    exact ⟨rfl, find?_settle_map s.orders oid f c o _ hf rfl rfl rfl⟩

/-- Witness for the amended C4: a pending order with total 1 ALGO, observed
amount 1 ALGO, settles; no-PENDING orders come out unchanged. -/
theorem c4_settle_order_exactly_once_witness :
    ((({ emptyRewardState with
          orders := [⟨1, "F", "C", ORDER_PENDING, 1, [], none, none⟩] } :
            RewardState).orders.find? (orderFor 1 "F" "C"))
        = some ⟨1, "F", "C", ORDER_PENDING, 1, [], none, none⟩)
      ∧ (settle_order_payment 7 1 "F" "C" 1 "tx"
          { emptyRewardState with
            orders := [⟨1, "F", "C", ORDER_PENDING, 1, [], none, none⟩] }).2
        = true := by
  refine ⟨by decide, ?_⟩
  refine (c4_settle_order_exactly_once.2.2.2 7 1 "F" "C" 1 "tx"
    { emptyRewardState with
      orders := [⟨1, "F", "C", ORDER_PENDING, 1, [], none, none⟩] }
    ⟨1, "F", "C", ORDER_PENDING, 1, [], none, none⟩
    (by decide) rfl ?_).1
  norm_num [SETTLE_EPSILON]

/-- Claim C10: settlement requires the payment's fan and creator wallets to
match the order row; when every row with the settled id mismatches, the call
returns False and the state is unchanged. -/
theorem c10_settle_requires_matching_wallets :
    ∀ (now : Int) (oid : Int) (f c : String) (amt : ℚ) (t : String)
      (s : RewardState),
      (∀ o ∈ s.orders, o.id = oid → o.fan_wallet ≠ f ∨ o.creator_wallet ≠ c) →
      settle_order_payment now oid f c amt t s = (s, false) := by
  intro now oid f c amt t s h
  have hf : s.orders.find? (orderFor oid f c) = none := by
    apply List.find?_eq_none.mpr
    intro o ho
    simp only [orderFor, Bool.and_eq_true, beq_iff_eq, not_and]
    intro h1 h2
    rcases h o ho h1.1 with hne | hne
    · exact absurd h1.2 hne
    · exact hne h2
  unfold settle_order_payment
  rw [hf]

/-- Witness for C10: an order for fan "X" is not settled by a matching-id
payment from fan "F". -/
theorem c10_settle_requires_matching_wallets_witness :
    (∀ o ∈ ({ emptyRewardState with
        orders := [⟨1, "X", "C", ORDER_PENDING, 1, [], none, none⟩] } :
          RewardState).orders,
        o.id = 1 → o.fan_wallet ≠ "F" ∨ o.creator_wallet ≠ "C")
      ∧ settle_order_payment 0 1 "F" "C" 5 "tx"
          { emptyRewardState with
            orders := [⟨1, "X", "C", ORDER_PENDING, 1, [], none, none⟩] }
        = ({ emptyRewardState with
             orders := [⟨1, "X", "C", ORDER_PENDING, 1, [], none, none⟩] }, false) :=
  ⟨by decide,
   c10_settle_requires_matching_wallets 0 1 "F" "C" 5 "tx" _ (by decide)⟩

/-! ## Bauni membership service (bauni_service.py)

The `memberships` table carries UNIQUE (fan_wallet, creator_wallet,
is_active), UNIQUE (asset_id) and the integer primary key.  A session write
that violates one of them raises IntegrityError when flushed and the
surrounding savepoint rolls it back; this is modelled by checking the
constraints on the written table and returning `.error ()` (table unchanged)
on violation. -/

/-- The declared uniqueness constraints of the `memberships` table, plus
primary-key uniqueness. -/
def membershipUniqueOk (ms : List MembershipRow) : Prop :=
  ms.Pairwise (fun a b =>
    (a.fan_wallet, a.creator_wallet, a.is_active)
        ≠ (b.fan_wallet, b.creator_wallet, b.is_active)
      ∧ a.asset_id ≠ b.asset_id ∧ a.id ≠ b.id)

instance (ms : List MembershipRow) : Decidable (membershipUniqueOk ms) :=
  List.instDecidablePairwise ms

/-- The invariant claimed for the table: no two rows of the same
(fan, creator) pair are simultaneously active. -/
def atMostOneActive (ms : List MembershipRow) : Prop :=
  ms.Pairwise (fun a b =>
    a.is_active = true → b.is_active = true →
    a.fan_wallet = b.fan_wallet → a.creator_wallet = b.creator_wallet → False)

/-- The WHERE clause of the renewal lookup in `purchase_membership`:
same pair, `is_active == True`, `expires_at > now`. -/
def activeFor (now : Int) (fan creator : String) (m : MembershipRow) : Bool :=
  m.fan_wallet == fan && m.creator_wallet == creator && m.is_active
    && decide (now < m.expires_at)

/-- The WHERE clause of `verify_membership`: same pair, `is_active == True`
(no expiry filter; expiry is handled after the lookup). -/
def pairActiveFor (fan creator : String) (m : MembershipRow) : Bool :=
  m.fan_wallet == fan && m.creator_wallet == creator && m.is_active

/-- `.order_by(expires_at.desc())` followed by `.first()`: the row with the
greatest `expires_at` (ties resolved to the earlier row; SQL leaves tie
order unspecified). -/
def pickLatest (l : List MembershipRow) : Option MembershipRow :=
  l.foldl (fun acc m =>
    match acc with
    | none => some m
    | some a => if m.expires_at > a.expires_at then some m else acc) none

/-- Fresh primary key for an inserted membership row. -/
def nextMembershipId (ms : List MembershipRow) : Nat :=
  ms.foldl (fun acc m => max acc m.id) 0 + 1

/-- `bauni_service.purchase_membership`: if the pair has an active,
non-expired membership, deactivate it and create a successor expiring
`BAUNI_VALIDITY_SECONDS` after the old expiry (renewal); otherwise create a
new membership expiring `now + BAUNI_VALIDITY_SECONDS`.  Returns the new
table, the expiry, and the renewal flag. -/
def purchase_membership (now : Int) (fan creator : String) (assetId : Nat)
    (purchaseTxId : Option String) (amountPaidMicro : Nat)
    (ms : List MembershipRow) :
    Except Unit (List MembershipRow × Int × Bool) :=
  match pickLatest (ms.filter (activeFor now fan creator)) with
  | some old =>
      let newExpiry := old.expires_at + BAUNI_VALIDITY_SECONDS
      let ms2 := (ms.map (fun m =>
          if m.id == old.id then { m with is_active := false } else m))
        ++ [⟨nextMembershipId ms, fan, creator, assetId, newExpiry, true,
             purchaseTxId, amountPaidMicro⟩]
      if membershipUniqueOk ms2 then .ok (ms2, newExpiry, true) else .error ()
  | none =>
      let newExpiry := now + BAUNI_VALIDITY_SECONDS
      let ms2 := ms ++ [⟨nextMembershipId ms, fan, creator, assetId, newExpiry,
        true, purchaseTxId, amountPaidMicro⟩]
      if membershipUniqueOk ms2 then .ok (ms2, newExpiry, false) else .error ()

/-- `bauni_service.verify_membership` (state part): look up the pair's
latest active membership; auto-expire it when `expires_at <= now`.  Returns
the table and the `is_valid` flag. -/
def verify_membership (now : Int) (fan creator : String)
    (ms : List MembershipRow) : Except Unit (List MembershipRow × Bool) :=
  match pickLatest (ms.filter (pairActiveFor fan creator)) with
  | none => .ok (ms, false)
  | some m =>
      if m.expires_at ≤ now then
        let ms2 := ms.map (fun x =>
          if x.id == m.id then { x with is_active := false } else x)
        if membershipUniqueOk ms2 then .ok (ms2, false) else .error ()
      else .ok (ms, true)

/-- `bauni_service.expire_memberships`: deactivate every active membership
whose `expires_at <= now`; returns the count. -/
def expire_memberships (now : Int) (ms : List MembershipRow) :
    Except Unit (List MembershipRow × Nat) :=
  let ms2 := ms.map (fun m =>
    if m.is_active && decide (m.expires_at ≤ now)
    then { m with is_active := false } else m)
  if membershipUniqueOk ms2 then
    .ok (ms2, (ms.filter (fun m => m.is_active && decide (m.expires_at ≤ now))).length)
  else .error ()

/-- The uniqueness constraints imply the claimed invariant: two distinct
rows of the same pair cannot both be active, since they would collide on
the (fan_wallet, creator_wallet, is_active) key. -/
theorem membershipUniqueOk_atMostOneActive (ms : List MembershipRow)
    (h : membershipUniqueOk ms) : atMostOneActive ms := by
  refine List.Pairwise.imp ?_ h
  intro a b hab ha hb hf hc
  exact hab.1 (by rw [hf, hc, ha, hb])

/-- `purchase_membership` only commits tables satisfying the constraints. -/
theorem purchase_membership_ok_unique (now : Int) (fan creator : String)
    (assetId : Nat) (txId : Option String) (amt : Nat)
    (ms ms' : List MembershipRow) (e : Int) (b : Bool)
    (hok : purchase_membership now fan creator assetId txId amt ms
      = .ok (ms', e, b)) :
    membershipUniqueOk ms' := by
  simp only [purchase_membership] at hok
  split at hok <;> split at hok <;>
    simp only [Except.ok.injEq, Prod.mk.injEq, reduceCtorEq] at hok
  · obtain ⟨h1, -, -⟩ := hok
    subst h1
    assumption
  · obtain ⟨h1, -, -⟩ := hok
    subst h1
    assumption

/-- `verify_membership` either leaves the table unchanged or commits a
table satisfying the constraints. -/
theorem verify_membership_ok_unique (now : Int) (fan creator : String)
    (ms ms' : List MembershipRow) (b : Bool)
    (h : membershipUniqueOk ms)
    (hok : verify_membership now fan creator ms = .ok (ms', b)) :
    membershipUniqueOk ms' := by
  simp only [verify_membership] at hok
  split at hok
  · simp only [Except.ok.injEq, Prod.mk.injEq] at hok
    obtain ⟨h1, -⟩ := hok
    subst h1
    exact h
  · split at hok
    · split at hok <;>
        simp only [Except.ok.injEq, Prod.mk.injEq, reduceCtorEq] at hok
      obtain ⟨h1, -⟩ := hok
      subst h1
      assumption
    · simp only [Except.ok.injEq, Prod.mk.injEq] at hok
      obtain ⟨h1, -⟩ := hok
      subst h1
      exact h

/-- `expire_memberships` only commits tables satisfying the constraints. -/
theorem expire_memberships_ok_unique (now : Int)
    (ms ms' : List MembershipRow) (n : Nat)
    (hok : expire_memberships now ms = .ok (ms', n)) :
    membershipUniqueOk ms' := by
  simp only [expire_memberships] at hok
  split at hok <;>
    simp only [Except.ok.injEq, Prod.mk.injEq, reduceCtorEq] at hok
  obtain ⟨h1, -⟩ := hok
  subst h1
  assumption

/-- One membership-table operation of the reconciliation pipeline.  An
operation whose flush violates a constraint is rolled back by the
surrounding savepoint, leaving the table unchanged. -/
inductive MembershipOp where
  | purchase (now : Int) (fan creator : String) (assetId : Nat)
      (txId : Option String) (amount : Nat)
  | verify (now : Int) (fan creator : String)
  | expire (now : Int)

/-- Apply one operation with rollback-on-error semantics. -/
def applyMembershipOp (op : MembershipOp) (ms : List MembershipRow) :
    List MembershipRow :=
  match op with
  | .purchase now f c a t amt =>
      match purchase_membership now f c a t amt ms with
      | .ok (ms', _, _) => ms'
      | .error _ => ms
  | .verify now f c =>
      match verify_membership now f c ms with
      | .ok (ms', _) => ms'
      | .error _ => ms
  | .expire now =>
      match expire_memberships now ms with
      | .ok (ms', _) => ms'
      | .error _ => ms

/-- Run a sequence of membership operations. -/
def runMembershipOps (ops : List MembershipOp) (ms : List MembershipRow) :
    List MembershipRow :=
  ops.foldl (fun m op => applyMembershipOp op m) ms

/-- Every single operation preserves the membership constraints. -/
theorem applyMembershipOp_preserves (op : MembershipOp)
    (ms : List MembershipRow) (h : membershipUniqueOk ms) :
    membershipUniqueOk (applyMembershipOp op ms) := by
  cases op with
  | purchase now f c a t amt =>
      cases hok : purchase_membership now f c a t amt ms with
      | ok r =>
          obtain ⟨ms', e, b⟩ := r
          simp only [applyMembershipOp, hok]
          exact purchase_membership_ok_unique now f c a t amt ms ms' e b hok
      | error u =>
          simp only [applyMembershipOp, hok]
          exact h
  | verify now f c =>
      cases hok : verify_membership now f c ms with
      | ok r =>
          obtain ⟨ms', b⟩ := r
          simp only [applyMembershipOp, hok]
          exact verify_membership_ok_unique now f c ms ms' b h hok
      | error u =>
          simp only [applyMembershipOp, hok]
          exact h
  | expire now =>
      cases hok : expire_memberships now ms with
      | ok r =>
          obtain ⟨ms', n⟩ := r
          simp only [applyMembershipOp, hok]
          exact expire_memberships_ok_unique now ms ms' n hok
      | error u =>
          simp only [applyMembershipOp, hok]
          exact h

/-- Claim C9: at most one active membership row per (fan, creator) pair, and
the invariant is preserved by every sequence of purchase / verify / expire
operations.  In particular a repeat purchase made after the previous
membership has expired but before any expiry cleanup has deactivated it
collides with the still-active row on the (fan, creator, is_active) unique
index, is rolled back, and leaves the single-active-row state unchanged. -/
theorem c9_at_most_one_active_membership :
    (∀ (ops : List MembershipOp) (ms : List MembershipRow),
        membershipUniqueOk ms →
        membershipUniqueOk (runMembershipOps ops ms)
          ∧ atMostOneActive (runMembershipOps ops ms))
      ∧ applyMembershipOp (.purchase 200 "F" "C" 2 (some "t2") 5000000)
            [⟨1, "F", "C", 1, 100, true, some "t1", 5000000⟩]
          = [⟨1, "F", "C", 1, 100, true, some "t1", 5000000⟩] := by
  constructor
  · intro ops
    induction ops with
    | nil =>
        intro ms h
        exact ⟨h, membershipUniqueOk_atMostOneActive ms h⟩
    | cons op rest ih =>
        intro ms h
        exact ih (applyMembershipOp op ms) (applyMembershipOp_preserves op ms h)
  · decide

/-- Witness for C9: starting from the empty table, a purchase followed by a
repeat purchase after expiry keeps the invariant. -/
theorem c9_at_most_one_active_membership_witness :
    membershipUniqueOk []
      ∧ atMostOneActive (runMembershipOps
          [.purchase 10 "F" "C" 1 (some "t1") 5000000,
           .purchase 2593000 "F" "C" 2 (some "t2") 5000000] []) :=
  ⟨by decide,
   (c9_at_most_one_active_membership.1
      [.purchase 10 "F" "C" 1 (some "t1") 5000000,
       .purchase 2593000 "F" "C" 2 (some "t2") 5000000] [] (by decide)).2⟩

/-! ## Helper lemmas for the membership renewal theorem -/

/-- In a list pairwise-distinct on a key, members with equal keys are equal. -/
theorem pairwise_key_inj {α β : Type} {key : α → β} {l : List α}
    (hp : l.Pairwise (fun a b => key a ≠ key b)) {a b : α}
    (ha : a ∈ l) (hb : b ∈ l) (hk : key a = key b) : a = b := by
  induction l with
  | nil => cases ha
  | cons x xs ih =>
      rw [List.pairwise_cons] at hp
      rcases List.mem_cons.mp ha with rfl | ha'
      · rcases List.mem_cons.mp hb with rfl | hb'
        · rfl
        · exact absurd hk (hp.1 b hb')
      · rcases List.mem_cons.mp hb with rfl | hb'
        · exact absurd hk.symm (hp.1 a ha')
        · exact ih hp.2 ha' hb'

/-- The accumulator is a lower bound of the running max in `nextMembershipId`. -/
theorem le_foldl_max_id (ms : List MembershipRow) (a : Nat) :
    a ≤ ms.foldl (fun acc m => max acc m.id) a := by
  induction ms generalizing a with
  | nil => exact Nat.le_refl a
  | cons x xs ih => exact Nat.le_trans (Nat.le_max_left a x.id) (ih (max a x.id))

/-- Every member's id bounds the running max from any accumulator. -/
theorem id_le_foldl_max (ms : List MembershipRow) (m : MembershipRow)
    (hm : m ∈ ms) : ∀ a : Nat, m.id ≤ ms.foldl (fun acc x => max acc x.id) a := by
  induction ms with
  | nil => cases hm
  | cons x xs ih =>
      intro a
      rcases List.mem_cons.mp hm with rfl | hm'
      · exact Nat.le_trans (Nat.le_max_right a m.id) (le_foldl_max_id xs (max a m.id))
      · exact ih hm' (max a x.id)

/-- Every member's id is below the fresh primary key. -/
theorem id_lt_nextMembershipId (ms : List MembershipRow) (m : MembershipRow)
    (hm : m ∈ ms) : m.id < nextMembershipId ms :=
  Nat.lt_succ_of_le (id_le_foldl_max ms m hm 0)

/-- `pickLatest` of a nonempty list whose members all equal `old` is `old`. -/
theorem pickLatest_const (old : MembershipRow) (l : List MembershipRow)
    (h : ∀ x ∈ l, x = old) (hne : l ≠ []) : pickLatest l = some old := by
  have aux : ∀ (xs : List MembershipRow), (∀ x ∈ xs, x = old) →
      xs.foldl (fun acc m =>
        match acc with
        | none => some m
        | some a => if m.expires_at > a.expires_at then some m else acc)
        (some old) = some old := by
    intro xs
    induction xs with
    | nil => intro _; rfl
    | cons y ys ih =>
        intro hy
        have hyo : y = old := hy y (List.mem_cons_self y ys)
        subst hyo
        simp only [List.foldl_cons, gt_iff_lt, lt_irrefl, if_false]
        exact ih (fun x hx => hy x (List.mem_cons_of_mem y hx))
  cases l with
  | nil => exact absurd rfl hne
  | cons x xs =>
      have hxo : x = old := h x (List.mem_cons_self x xs)
      subst hxo
      unfold pickLatest
      simp only [List.foldl_cons]
      exact aux xs (fun y hy => h y (List.mem_cons_of_mem x hy))

/-- Unfolding of the renewal-lookup filter. -/
theorem activeFor_iff (now : Int) (fan creator : String) (m : MembershipRow) :
    activeFor now fan creator m = true
      ↔ m.fan_wallet = fan ∧ m.creator_wallet = creator ∧ m.is_active = true
          ∧ now < m.expires_at := by
  simp [activeFor, and_assoc]

/-- Projections of the renewal deactivation update: only `is_active` can
change. -/
theorem deact_id (oldId : Nat) (m : MembershipRow) :
    (if m.id == oldId then { m with is_active := false } else m).id = m.id := by
  split <;> rfl

/-- Asset id is unchanged by the deactivation update. -/
theorem deact_asset (oldId : Nat) (m : MembershipRow) :
    (if m.id == oldId then { m with is_active := false } else m).asset_id
      = m.asset_id := by
  split <;> rfl

/-- Fan wallet is unchanged by the deactivation update. -/
theorem deact_fan (oldId : Nat) (m : MembershipRow) :
    (if m.id == oldId then { m with is_active := false } else m).fan_wallet
      = m.fan_wallet := by
  split <;> rfl

/-- Creator wallet is unchanged by the deactivation update. -/
theorem deact_cr (oldId : Nat) (m : MembershipRow) :
    (if m.id == oldId then { m with is_active := false } else m).creator_wallet
      = m.creator_wallet := by
  split <;> rfl

/-- Claim C3, counterexample to the claim as stated: with the pair's table
holding a previously deactivated row and an active row expiring at T = 200,
a renewal purchase at now = 50 < T does not create a successor with
expiry T + 30 days — deactivating the active row collides with the
already-inactive row on the UNIQUE (fan_wallet, creator_wallet, is_active)
index and the purchase fails (IntegrityError, rolled back). -/
theorem c3_membership_renewal_counterexample :
    purchase_membership 50 "F" "C" 3 (some "t3") 5000000
        [⟨1, "F", "C", 1, 100, false, some "t1", 5000000⟩,
         ⟨2, "F", "C", 2, 200, true, some "t2", 5000000⟩]
      = Except.error () := by decide

/-- Claim C3 (amended): when the (fan, creator) pair's only membership row
is a single active one with `expires_at = T > now`, and the minted asset id
is fresh, `purchase_membership` deactivates the old row and creates a
successor with `expires_at = T + 30 days` (not now + 30 days); when the pair
has no active row at all (and the asset id is fresh), the new membership
gets `expires_at = now + 30 days`.  (The unamended claim fails when another
row for the pair exists: the deactivation or the insert then violates the
UNIQUE (fan_wallet, creator_wallet, is_active) index and the purchase is
rolled back.) -/
theorem c3_membership_renewal_accrues :
    (∀ (now : Int) (fan creator : String) (assetId : Nat)
        (txId : Option String) (amt : Nat) (ms : List MembershipRow)
        (old : MembershipRow),
        membershipUniqueOk ms →
        old ∈ ms →
        activeFor now fan creator old = true →
        (∀ m ∈ ms, m.fan_wallet = fan → m.creator_wallet = creator → m = old) →
        (∀ m ∈ ms, m.asset_id ≠ assetId) →
        purchase_membership now fan creator assetId txId amt ms
          = .ok ((ms.map (fun m =>
                if m.id == old.id then { m with is_active := false } else m))
              ++ [⟨nextMembershipId ms, fan, creator, assetId,
                   old.expires_at + BAUNI_VALIDITY_SECONDS, true, txId, amt⟩],
              old.expires_at + BAUNI_VALIDITY_SECONDS, true))
    ∧ (∀ (now : Int) (fan creator : String) (assetId : Nat)
        (txId : Option String) (amt : Nat) (ms : List MembershipRow),
        membershipUniqueOk ms →
        (∀ m ∈ ms, m.fan_wallet = fan → m.creator_wallet = creator →
          m.is_active = false) →
        (∀ m ∈ ms, m.asset_id ≠ assetId) →
        purchase_membership now fan creator assetId txId amt ms
          = .ok (ms ++ [⟨nextMembershipId ms, fan, creator, assetId,
                   now + BAUNI_VALIDITY_SECONDS, true, txId, amt⟩],
              now + BAUNI_VALIDITY_SECONDS, false)) := by
  constructor
  · intro now fan creator assetId txId amt ms old huniq hmem hact honly hasset
    obtain ⟨hofan, hocr, hoact, -⟩ := (activeFor_iff now fan creator old).mp hact
    have hid : ms.Pairwise (fun a b => a.id ≠ b.id) :=
      List.Pairwise.imp (fun h => h.2.2) huniq
    have hfilter_all : ∀ x ∈ ms.filter (activeFor now fan creator), x = old := by
      intro x hx
      obtain ⟨hxm, hxf⟩ := List.mem_filter.mp hx
      obtain ⟨h1, h2, -, -⟩ := (activeFor_iff now fan creator x).mp hxf
      exact honly x hxm h1 h2
    have hne : ms.filter (activeFor now fan creator) ≠ [] :=
      List.ne_nil_of_mem (List.mem_filter.mpr ⟨hmem, hact⟩)
    have hpick := pickLatest_const old _ hfilter_all hne
    have huniq2 : membershipUniqueOk
        ((ms.map (fun m =>
            if m.id == old.id then { m with is_active := false } else m))
          ++ [⟨nextMembershipId ms, fan, creator, assetId,
               old.expires_at + BAUNI_VALIDITY_SECONDS, true, txId, amt⟩]) := by
      rw [membershipUniqueOk, List.pairwise_append]
      refine ⟨?_, List.pairwise_singleton _ _, ?_⟩
      · rw [List.pairwise_map]
        refine List.Pairwise.imp_of_mem ?_ huniq
        intro a b hamem hbmem hab
        obtain ⟨ht, ha', hi⟩ := hab
        refine ⟨?_, ?_, ?_⟩
        · -- triple inequality is preserved by the deactivation update
          by_cases haid : a.id = old.id
          · have haold : a = old := pairwise_key_inj hid hamem hmem haid
            subst haold
            rw [if_pos (by simp)]
            rw [if_neg (by simp only [beq_iff_eq]; exact fun hc => hi hc.symm)]
            intro hc
            have hb1 : b.fan_wallet = fan := by
              have := congrArg Prod.fst hc
              simpa [hofan] using this.symm
            have hb2 : b.creator_wallet = creator := by
              have := congrArg (fun p => p.2.1) hc
              simpa [hocr] using this.symm
            exact hi ((honly b hbmem hb1 hb2) ▸ rfl)
          · by_cases hbid : b.id = old.id
            · have hbold : b = old := pairwise_key_inj hid hbmem hmem hbid
              subst hbold
              rw [if_neg (by simp [haid])]
              rw [if_pos (by simp)]
              intro hc
              have ha1 : a.fan_wallet = fan := by
                have := congrArg Prod.fst hc
                simpa [hofan] using this
              have ha2 : a.creator_wallet = creator := by
                have := congrArg (fun p => p.2.1) hc
                simpa [hocr] using this
              exact hi ((honly a hamem ha1 ha2) ▸ rfl)
            · rw [if_neg (by simp [haid]), if_neg (by simp [hbid])]
              exact ht
        · rw [deact_asset, deact_asset]
          exact ha'
        · rw [deact_id, deact_id]
          exact hi
      · intro x hx y hy
        obtain ⟨m, hmm, rfl⟩ := List.mem_map.mp hx
        have hy' := List.mem_singleton.mp hy
        subst hy'
        refine ⟨?_, ?_, ?_⟩
        · by_cases hmid : m.id = old.id
          · have : m = old := pairwise_key_inj hid hmm hmem hmid
            subst this
            rw [if_pos (by simp)]
            intro hc
            exact Bool.false_ne_true (congrArg (fun p => p.2.2) hc)
          · rw [if_neg (by simp [hmid])]
            intro hc
            have h1 : m.fan_wallet = fan := congrArg Prod.fst hc
            have h2 : m.creator_wallet = creator := congrArg (fun p => p.2.1) hc
            exact hmid (congrArg MembershipRow.id (honly m hmm h1 h2))
        · rw [deact_asset]
          exact hasset m hmm
        · rw [deact_id]
          exact Nat.ne_of_lt (id_lt_nextMembershipId ms m hmm)
    simp only [purchase_membership, hpick]
    rw [if_pos huniq2]
  · intro now fan creator assetId txId amt ms huniq hnoact hasset
    have hpick : pickLatest (ms.filter (activeFor now fan creator)) = none := by
      have hnil : ms.filter (activeFor now fan creator) = [] := by
        rw [List.filter_eq_nil_iff]
        intro m hm hma
        obtain ⟨h1, h2, h3, -⟩ := (activeFor_iff now fan creator m).mp hma
        rw [hnoact m hm h1 h2] at h3
        exact Bool.false_ne_true h3
      rw [hnil]
      rfl
    have huniq2 : membershipUniqueOk
        (ms ++ [⟨nextMembershipId ms, fan, creator, assetId,
          now + BAUNI_VALIDITY_SECONDS, true, txId, amt⟩]) := by
      rw [membershipUniqueOk, List.pairwise_append]
      refine ⟨huniq, List.pairwise_singleton _ _, ?_⟩
      intro m hm y hy
      have hy' := List.mem_singleton.mp hy
      subst hy'
      refine ⟨?_, hasset m hm, Nat.ne_of_lt (id_lt_nextMembershipId ms m hm)⟩
      intro hc
      have h1 : m.fan_wallet = fan := congrArg Prod.fst hc
      have h2 : m.creator_wallet = creator := congrArg (fun p => p.2.1) hc
      have h3 : m.is_active = true := congrArg (fun p => p.2.2) hc
      rw [hnoact m hm h1 h2] at h3
      exact Bool.false_ne_true h3
    simp only [purchase_membership, hpick]
    rw [if_pos huniq2]

/-- Witness for the amended C3: renewing the single active membership
(expiry 100) at now = 50 yields a successor expiring at
100 + 30 days = 2592100, and the first purchase into the empty table
expires at now + 30 days. -/
theorem c3_membership_renewal_accrues_witness :
    purchase_membership 50 "F" "C" 2 (some "t2") 5000000
        [⟨1, "F", "C", 1, 100, true, some "t1", 5000000⟩]
      = .ok ([⟨1, "F", "C", 1, 100, false, some "t1", 5000000⟩,
              ⟨2, "F", "C", 2, 100 + BAUNI_VALIDITY_SECONDS, true,
                some "t2", 5000000⟩],
          100 + BAUNI_VALIDITY_SECONDS, true) := by
  have h := c3_membership_renewal_accrues.1 50 "F" "C" 2 (some "t2") 5000000
    [⟨1, "F", "C", 1, 100, true, some "t1", 5000000⟩]
    ⟨1, "F", "C", 1, 100, true, some "t1", 5000000⟩
    (by decide) (by decide) (by decide)
    (by intro m hm h1 h2; simpa using List.mem_singleton.mp hm)
    (by decide)
  rw [h]
  rfl

/-! ## Payload decoder (listener_service.parse_tip_log)

A raw indexer transaction is modelled by its list of log payloads; each
payload is the result of base64-decoding the log string — `none` stands for
a string that is not valid base64, `some raw` for the decoded byte list (a
byte is a `Nat`, reduced mod 256 where it is read as a byte).  The two
total external codecs are passed as parameters: `enc` is
`algosdk.encoding.encode_address` (`none` modelling its exception), and
`dec` is `bytes.decode("utf-8", errors="ignore")`, which never fails. -/

structure RawTxn where
  logs : List (Option (List Nat))
deriving Repr

/-- The decoded event returned by `parse_tip_log`. -/
structure ParsedTip where
  fan_wallet : String
  amount_micro : Nat
  memo : String
deriving Repr, DecidableEq

/-- `int.from_bytes(bs, "big")`. -/
def beBytesToNat (bs : List Nat) : Nat :=
  bs.foldl (fun a b => a * 256 + b % 256) 0

/-- `listener_service.parse_tip_log`: parse the binary log of
`TipProxy.tip()` — 32-byte payer identity, 8-byte big-endian amount,
UTF-8 memo remainder.  Total: every failure path returns `none`. -/
def parse_tip_log (enc : List Nat → Option String) (dec : List Nat → String)
    (txn : RawTxn) : Option ParsedTip :=
  match txn.logs with
  | [] => none
  | log :: _ =>
      match log with
      | none => none
      | some raw =>
          if raw.length < 40 then none
          else
            match enc (raw.take 32) with
            | none => none
            | some addr =>
                some ⟨addr, beBytesToNat ((raw.drop 32).take 8),
                      dec (raw.drop 40)⟩

/-- Claim C5: the payload decoder is total and never raises: absent logs,
invalid base64, payloads shorter than 40 bytes, and identities the address
encoder rejects all decode to `none`; otherwise the decoder returns the
encoded payer address, the big-endian unsigned integer of bytes 32..40, and
the remaining bytes decoded as the memo. -/
theorem c5_parse_tip_log_total :
    (∀ (enc : List Nat → Option String) (dec : List Nat → String),
        parse_tip_log enc dec ⟨[]⟩ = none)
    ∧ (∀ (enc : List Nat → Option String) (dec : List Nat → String)
        (rest : List (Option (List Nat))),
        parse_tip_log enc dec ⟨none :: rest⟩ = none)
    ∧ (∀ (enc : List Nat → Option String) (dec : List Nat → String)
        (raw : List Nat) (rest : List (Option (List Nat))),
        raw.length < 40 →
        parse_tip_log enc dec ⟨some raw :: rest⟩ = none)
    ∧ (∀ (enc : List Nat → Option String) (dec : List Nat → String)
        (raw : List Nat) (rest : List (Option (List Nat))),
        enc (raw.take 32) = none →
        parse_tip_log enc dec ⟨some raw :: rest⟩ = none)
    ∧ (∀ (enc : List Nat → Option String) (dec : List Nat → String)
        (raw : List Nat) (rest : List (Option (List Nat))) (addr : String),
        ¬ raw.length < 40 →
        enc (raw.take 32) = some addr →
        parse_tip_log enc dec ⟨some raw :: rest⟩
          = some ⟨addr, beBytesToNat ((raw.drop 32).take 8),
                  dec (raw.drop 40)⟩) := by
  refine ⟨fun _ _ => rfl, fun _ _ _ => rfl, ?_, ?_, ?_⟩
  · intro enc dec raw rest hlen
    simp only [parse_tip_log]
    rw [if_pos hlen]
  · intro enc dec raw rest henc
    simp only [parse_tip_log]
    by_cases hlen : raw.length < 40
    · rw [if_pos hlen]
    · rw [if_neg hlen, henc]
  · intro enc dec raw rest addr hlen henc
    simp only [parse_tip_log]
    rw [if_neg hlen, henc]

/-- Witness for C5: a 41-byte payload with amount bytes encoding 256 and a
one-byte memo decodes to the expected event. -/
theorem c5_parse_tip_log_total_witness :
    (¬ (List.replicate 32 0 ++ [0, 0, 0, 0, 0, 0, 1, 0, 65]).length < 40)
      ∧ parse_tip_log (fun _ => some "ADDR") (fun _ => "A")
          ⟨[some (List.replicate 32 0 ++ [0, 0, 0, 0, 0, 0, 1, 0, 65])]⟩
        = some ⟨"ADDR",
            beBytesToNat (((List.replicate 32 (0 : Nat)
              ++ [0, 0, 0, 0, 0, 0, 1, 0, 65]).drop 32).take 8),
            "A"⟩ :=
  ⟨by decide,
   c5_parse_tip_log_total.2.2.2.2 (fun _ => some "ADDR") (fun _ => "A")
     (List.replicate 32 0 ++ [0, 0, 0, 0, 0, 0, 1, 0, 65]) [] "ADDR"
     (by decide) rfl⟩

/-! ## Checkpoint store (listener_service._load_last_round /
_save_last_round, and the round bookkeeping of _listener_loop)

The singleton `listener_state` row is modelled as `Option Nat`: `none` when
no row exists, `some r` for a persisted `last_processed_round`. -/

/-- `_load_last_round`: returns the persisted round, or 0 if no state row
exists. -/
def loadLastRound (st : Option Nat) : Nat := st.getD 0

/-- `_save_last_round`: upserts the singleton row to the given round. -/
def saveLastRound (r : Nat) (_ : Option Nat) : Option Nat := some r

/-- The per-cycle round tracking of `_listener_loop`: starting from the
current in-memory round, take every transaction's `confirmed-round` that is
strictly greater than the running maximum. -/
def cycleMaxRound (lastRound : Nat) (rounds : List Nat) : Nat :=
  rounds.foldl (fun m r => if r > m then r else m) lastRound

/-- One reconciliation cycle's checkpoint handling: after draining all
sources, persist `max_round_seen` only when it strictly exceeds the current
in-memory round.  Returns (persisted row, in-memory round). -/
def listenerCycle (db : Option Nat) (mem : Nat) (rounds : List Nat) :
    Option Nat × Nat :=
  let mx := cycleMaxRound mem rounds
  if mx > mem then (saveLastRound mx db, mx) else (db, mem)

/-- Run a sequence of cycles. -/
def runListenerCycles (db : Option Nat) (mem : Nat) :
    List (List Nat) → Option Nat × Nat
  | [] => (db, mem)
  | c :: cs =>
      runListenerCycles (listenerCycle db mem c).1 (listenerCycle db mem c).2 cs

/-- The seed is a lower bound of `cycleMaxRound`. -/
theorem le_cycleMaxRound (rounds : List Nat) :
    ∀ a : Nat, a ≤ cycleMaxRound a rounds := by
  unfold cycleMaxRound
  induction rounds with
  | nil => exact fun a => Nat.le_refl a
  | cons r rs ih =>
      intro a
      simp only [List.foldl_cons]
      by_cases h : r > a
      · rw [if_pos h]
        exact Nat.le_trans (Nat.le_of_lt h) (ih r)
      · rw [if_neg h]
        exact ih a

/-- One cycle never decreases the in-memory round, keeps the persisted
round a lower bound of the in-memory one, and replaces the persisted value
only by a strictly greater one. -/
theorem listenerCycle_mono (db : Option Nat) (mem : Nat) (rounds : List Nat)
    (hinv : loadLastRound db ≤ mem) :
    mem ≤ (listenerCycle db mem rounds).2
      ∧ loadLastRound db ≤ loadLastRound (listenerCycle db mem rounds).1
      ∧ loadLastRound (listenerCycle db mem rounds).1
          ≤ (listenerCycle db mem rounds).2
      ∧ ((listenerCycle db mem rounds).1 ≠ db →
          loadLastRound db < loadLastRound (listenerCycle db mem rounds).1) := by
  unfold listenerCycle
  by_cases h : cycleMaxRound mem rounds > mem
  · rw [if_pos h]
    refine ⟨Nat.le_of_lt h, ?_, Nat.le_refl _, ?_⟩
    · exact Nat.le_trans hinv (Nat.le_of_lt h)
    · intro _
      exact Nat.lt_of_le_of_lt hinv h
  · rw [if_neg h]
    exact ⟨Nat.le_refl mem, Nat.le_refl _, hinv, fun hne => absurd rfl hne⟩

/-- Claim C6: the checkpoint never decreases.  `read` returns 0 when no row
exists; a persisted position is only replaced by a strictly greater one;
over any sequence of cycles the in-memory and persisted checkpoints are
monotone, with the persisted value always a lower bound of the in-memory
one; and a restart resumes from exactly the last persisted value, never
from zero. -/
theorem c6_checkpoint_monotonic :
    loadLastRound none = 0
      ∧ (∀ (r : Nat) (db : Option Nat), loadLastRound (saveLastRound r db) = r)
      ∧ (∀ (db : Option Nat) (mem : Nat) (rounds : List Nat),
          (listenerCycle db mem rounds).1 ≠ db →
          loadLastRound db ≤ mem →
          loadLastRound db < loadLastRound (listenerCycle db mem rounds).1)
      ∧ (∀ (cycles : List (List Nat)) (db : Option Nat) (mem : Nat),
          loadLastRound db ≤ mem →
          mem ≤ (runListenerCycles db mem cycles).2
            ∧ loadLastRound db
                ≤ loadLastRound (runListenerCycles db mem cycles).1
            ∧ loadLastRound (runListenerCycles db mem cycles).1
                ≤ (runListenerCycles db mem cycles).2) := by
  refine ⟨rfl, fun _ _ => rfl, ?_, ?_⟩
  · intro db mem rounds hne hinv
    exact (listenerCycle_mono db mem rounds hinv).2.2.2 hne
  · intro cycles
    induction cycles with
    | nil =>
        intro db mem hinv
        exact ⟨Nat.le_refl mem, Nat.le_refl _, hinv⟩
    | cons c cs ih =>
        intro db mem hinv
        obtain ⟨h1, h2, h3, -⟩ := listenerCycle_mono db mem c hinv
        obtain ⟨ih1, ih2, ih3⟩ := ih (listenerCycle db mem c).1
          (listenerCycle db mem c).2 h3
        exact ⟨Nat.le_trans h1 ih1, Nat.le_trans h2 ih2, ih3⟩

/-- Witness for C6: a restart after persisting round 7 resumes from 7, and
the cycles (7, then a cycle seeing rounds 5 and 9) keep the checkpoint
monotone. -/
theorem c6_checkpoint_monotonic_witness :
    loadLastRound (some 7) ≤ 7
      ∧ 7 ≤ (runListenerCycles (some 7) 7 [[5, 9], [3]]).2
      ∧ loadLastRound (runListenerCycles (some 7) 7 [[5, 9], [3]]).1
          ≤ (runListenerCycles (some 7) 7 [[5, 9], [3]]).2 :=
  ⟨by decide,
   (c6_checkpoint_monotonic.2.2.2 [[5, 9], [3]] (some 7) 7 (by decide)).1,
   (c6_checkpoint_monotonic.2.2.2 [[5, 9], [3]] (some 7) 7 (by decide)).2.2⟩

/-! ## Python string primitives

Python `str` values manipulated by the router and the retry sweeper are
modelled as `List Char` (converted from the stored `String` at the use
site), with structurally recursive implementations so that concrete inputs
evaluate inside the kernel.  ASCII-only simplifications: `str.upper` maps
`Char.toUpper` (the memo tags are ASCII), `str.strip` removes the ASCII
whitespace recognised by `Char.isWhitespace`, and `int(...)` accepts an
optional sign and decimal digits (Python's underscore digit grouping is not
modelled). -/

/-- Python `str.strip()`. -/
def pyStrip (s : List Char) : List Char :=
  ((s.dropWhile Char.isWhitespace).reverse.dropWhile Char.isWhitespace).reverse

/-- Python `str.upper()`. -/
def pyUpper (s : List Char) : List Char := s.map Char.toUpper

/-- Python `str.startswith(p)`. -/
def pyStartsWith (s p : List Char) : Bool := p.isPrefixOf s

/-- Fuelled worker for `str.split(sep)`; each step consumes at least one
character, so `fuel = s.length` suffices for a nonempty separator. -/
def pySplitAux (sep : List Char) : Nat → List Char → List Char → List (List Char)
  | _, [], acc => [acc.reverse]
  | 0, s, acc => [acc.reverse ++ s]
  | fuel + 1, c :: rest, acc =>
      if sep.isPrefixOf (c :: rest) then
        acc.reverse :: pySplitAux sep fuel ((c :: rest).drop sep.length) []
      else
        pySplitAux sep fuel rest (c :: acc)

/-- Python `str.split(sep)` for a nonempty separator: all (possibly empty)
segments between occurrences of `sep`. -/
def pySplit (sep s : List Char) : List (List Char) :=
  if sep.isEmpty then [s] else pySplitAux sep s.length s []

/-- Python `str.split()` (no separator): whitespace runs, no empty parts. -/
def pySplitWs (s : List Char) : List (List Char) :=
  (s.splitOnP Char.isWhitespace).filter (fun t => !t.isEmpty)

/-- Python `sub in s` substring containment. -/
def pyContains (s sub : List Char) : Bool :=
  match s with
  | [] => sub.isEmpty
  | _ :: rest => sub.isPrefixOf s || pyContains rest sub

/-- Accumulate decimal digits; `none` on a non-digit or empty input. -/
def pyDigits? (ds : List Char) : Option Nat :=
  if ds.isEmpty then none
  else ds.foldl (fun acc c =>
    match acc with
    | none => none
    | some n => if c.isDigit then some (n * 10 + (c.toNat - 48)) else none)
    (some 0)

/-- Python `int(s)`: optional sign, decimal digits. -/
def pyInt? (s : List Char) : Option Int :=
  match s with
  | '-' :: ds => (pyDigits? ds).map (fun n => -(n : Int))
  | '+' :: ds => (pyDigits? ds).map (fun n => (n : Int))
  | ds => (pyDigits? ds).map (fun n => (n : Int))

/-! ## Retry sweeper (listener_service._retry_failed_mints and the
retry-count bookkeeping kept in the memo text) -/

/-- `MAX_RETRY_ATTEMPTS = 3`. -/
def MAX_RETRY_ATTEMPTS : Int := 3

/-- The `"__RETRY:"` marker used to track the retry count in the memo. -/
def RETRY_TAG : List Char := "__RETRY:".toList

/-- `listener_service._get_retry_count`: parse the count after the last
`__RETRY:` marker; 0 when the marker is absent or the parse fails. -/
def _get_retry_count (memo : Option String) : Int :=
  let s := (memo.getD "").toList
  if pyContains s RETRY_TAG then
    match pyInt? ((pySplit RETRY_TAG s).getLastD []) with
    | some n => n
    | none => 0
  else 0

/-- `listener_service._increment_retry_count`: replace (or append) the
`__RETRY:N` marker with `N + 1`. -/
def _increment_retry_count (memo : Option String) : String :=
  let s := (memo.getD "").toList
  let current := _get_retry_count memo
  if pyContains s RETRY_TAG then
    ⟨(pySplit RETRY_TAG s).headD [] ++ RETRY_TAG ++ (toString (current + 1)).toList⟩
  else
    ⟨s ++ RETRY_TAG ++ (toString (current + 1)).toList⟩

/-- The outcome of re-running the routing pipeline for a record in the
retry sweeper — the pipeline call is external to this step and classified
by `_is_transient_error` on failure. -/
inductive RouteOutcome where
  | success
  | failure (transient : Bool)

/-- One sweeper iteration for one selected record (the body of the loop in
`_retry_failed_mints`).  Returns the updated record and whether the routing
pipeline was invoked at all (`false` means the record was abandoned without
attempting the reward). -/
def retrySweepStep (outcome : RouteOutcome) (r : TxRecord) : TxRecord × Bool :=
  let rc := _get_retry_count r.memo
  if rc ≥ MAX_RETRY_ATTEMPTS then
    ({ r with processed := true }, false)
  else
    match outcome with
    | .success => ({ r with processed := true }, true)
    | .failure transient =>
        if !transient && rc ≥ 1 then
          ({ r with processed := true }, true)
        else
          ({ r with memo := some (_increment_retry_count r.memo) }, true)

/-- The sweeper's selection query: unprocessed records, in batches of 10. -/
def selectForRetry (txs : List TxRecord) : List TxRecord :=
  (txs.filter (fun t => t.processed == false)).take 10

/-- Claim C8: once the tracked retry count of an unprocessed record reaches
`MAX_RETRY_ATTEMPTS = 3`, the sweeper marks it processed without invoking
the routing pipeline (the reward is never granted); records marked
processed are never selected by any sweep, and no step ever un-marks them;
a permanent (non-transient) failure on a record with at least one prior
attempt causes immediate abandonment; and a fresh record abandoned after
three transient failures shows the full trace concretely. -/
theorem c8_retry_abandonment :
    (∀ (outcome : RouteOutcome) (r : TxRecord),
        r.processed = false →
        _get_retry_count r.memo ≥ MAX_RETRY_ATTEMPTS →
        retrySweepStep outcome r = ({ r with processed := true }, false))
    ∧ (∀ (txs : List TxRecord) (r : TxRecord),
        r.processed = true → r ∉ selectForRetry txs)
    ∧ (∀ (r : TxRecord),
        1 ≤ _get_retry_count r.memo →
        ¬ _get_retry_count r.memo ≥ MAX_RETRY_ATTEMPTS →
        retrySweepStep (.failure false) r = ({ r with processed := true }, true))
    ∧ (∀ (outcome : RouteOutcome) (r : TxRecord),
        r.processed = true → ((retrySweepStep outcome r).1).processed = true)
    ∧ retrySweepStep (.failure true)
        ((retrySweepStep (.failure true)
          ((retrySweepStep (.failure true)
            ((retrySweepStep (.failure true)
              ⟨"tx", "F", "C", 500000, some "hi", false⟩).1)).1)).1)
      = (⟨"tx", "F", "C", 500000, some "hi__RETRY:3", true⟩, false) := by
  refine ⟨?_, ?_, ?_, ?_, by decide⟩
  · intro outcome r _ hmax
    unfold retrySweepStep
    rw [if_pos hmax]
  · intro txs r hproc hmem
    have hsub := List.take_subset 10 (txs.filter (fun t => t.processed == false))
    have hf := List.mem_filter.mp (hsub hmem)
    rw [hproc] at hf
    exact absurd hf.2 (by decide)
  · intro r h1 hmax
    unfold retrySweepStep
    rw [if_neg hmax]
    simp only [Bool.not_false, Bool.true_and, decide_eq_true_eq, if_pos h1]
  · intro outcome r hproc
    unfold retrySweepStep
    by_cases hmax : _get_retry_count r.memo ≥ MAX_RETRY_ATTEMPTS
    · rw [if_pos hmax]
    · rw [if_neg hmax]
      cases outcome with
      | success => rfl
      | failure transient =>
          dsimp only
          split
          · rfl
          · exact hproc

/-- Witness for C8: a record whose memo carries `__RETRY:3` is abandoned
without invoking the pipeline. -/
theorem c8_retry_abandonment_witness :
    ((⟨"tx", "F", "C", 500000, some "x__RETRY:3", false⟩ : TxRecord).processed
        = false)
      ∧ retrySweepStep .success ⟨"tx", "F", "C", 500000, some "x__RETRY:3", false⟩
        = (⟨"tx", "F", "C", 500000, some "x__RETRY:3", true⟩, false) :=
  ⟨rfl,
   c8_retry_abandonment.1 .success ⟨"tx", "F", "C", 500000, some "x__RETRY:3", false⟩
     rfl (by decide)⟩

/-! ## Event router (listener_service.route_tip)

External collaborators of the router are collected in `RouteEnv`: whether a
creator has a configured Bauni / Shawty / Butki sticker template with a
metadata url, for the template lookups.  On-chain minting and NFT delivery
are external and modelled as succeeding with the caller-supplied fresh
`assetId` (the `nfts` table and delivery statuses are outside the modelled
reward-ledger state; a delivery failure is caught in the source and does
not abort the path).  A constraint violation surfacing at flush time
(`purchase_membership` here) aborts the event's savepoint: `.error ()`. -/

structure RouteEnv where
  bauniTemplate : String → Bool
  shawtyTemplate : String → Bool
  butkiTemplate : String → Bool

/-- Extraction of the order reference in Path 0 of `route_tip`:
`memo_upper.split("ORDER:")[1].split()[0]` parsed as an int, `None` on any
failure. -/
def parseOrderId (memoUpper : List Char) : Option Int :=
  match pySplit MEMO_ORDER.toList memoUpper with
  | _ :: seg :: _ =>
      match pySplitWs seg with
      | tok :: _ => pyInt? tok
      | [] => none
  | _ => none

/-- The normalised memo used for all prefix dispatch:
`memo.strip().upper()` of the record's memo (`tx_record.memo or ""`). -/
def memoUpperOf (tx : TxRecord) : List Char :=
  pyUpper (pyStrip ((tx.memo.getD "").toList))

/-- Path 0 of `route_tip`: order settlement.  Runs when the memo carries the
order tag and a parsable order reference; its Boolean result is only
logged, and it does not short-circuit the later paths. -/
def orderPart (now : Int) (tx : TxRecord) (s : RewardState) : RewardState :=
  if pyStartsWith (memoUpperOf tx) MEMO_ORDER.toList then
    match parseOrderId (memoUpperOf tx) with
    | some oid =>
        (settle_order_payment now oid tx.fan_wallet tx.creator_wallet
          (microToAlgo tx.amount_micro) tx.tx_id s).1
    | none => s
  else s

/-- Path 1 of `route_tip` (body after the BAUNI memo test): idempotency
check on `purchase_tx_id`, amount threshold, template lookup, then mint and
membership purchase. -/
def bauniPath (env : RouteEnv) (now : Int) (assetId : Nat) (tx : TxRecord)
    (s : RewardState) : Except Unit RewardState :=
  if s.memberships.any (fun m => m.purchase_tx_id == some tx.tx_id) then .ok s
  else if microToAlgo tx.amount_micro < BAUNI_COST_ALGO then .ok s
  else if !(env.bauniTemplate tx.creator_wallet) then .ok s
  else
    match purchase_membership now tx.fan_wallet tx.creator_wallet assetId
        (some tx.tx_id) tx.amount_micro s.memberships with
    | .ok (ms, _, _) => .ok { s with memberships := ms }
    | .error _ => .error ()

/-- Path 2 of `route_tip` (body after the SHAWTY memo test): idempotency
check on `purchase_tx_id`, amount threshold, template lookup, then mint and
token registration. -/
def shawtyPath (env : RouteEnv) (assetId : Nat) (tx : TxRecord)
    (s : RewardState) : Except Unit RewardState :=
  if s.shawtyTokens.any (fun t => t.purchase_tx_id == some tx.tx_id) then .ok s
  else if microToAlgo tx.amount_micro < SHAWTY_COST_ALGO then .ok s
  else if !(env.shawtyTemplate tx.creator_wallet) then .ok s
  else
    .ok { s with shawtyTokens :=
      (register_purchase assetId tx.fan_wallet tx.creator_wallet
        (some tx.tx_id) tx.amount_micro s.shawtyTokens).1 }

/-- Path 3 of `route_tip` (after the amount threshold): loyalty accrual and
badge minting for every 5th qualifying tip. -/
def loyaltyPath (env : RouteEnv) (assetId : Nat) (tx : TxRecord)
    (s : RewardState) : Except Unit RewardState :=
  let r := record_tip tx.fan_wallet tx.creator_wallet tx.tx_id
    tx.amount_micro s
  if r.2.earned_badge then
    if env.butkiTemplate tx.creator_wallet then
      .ok (record_badge_asset tx.fan_wallet tx.creator_wallet assetId r.1)
    else .ok r.1
  else .ok r.1

/-- `listener_service.route_tip`: order settlement first (falling through),
then exactly one of the three reward paths selected by memo tag and
amount. -/
def routeTip (env : RouteEnv) (now : Int) (assetId : Nat) (tx : TxRecord)
    (s : RewardState) : Except Unit RewardState :=
  let s0 := orderPart now tx s
  if pyStartsWith (memoUpperOf tx) MEMO_BAUNI.toList then
    bauniPath env now assetId tx s0
  else if pyStartsWith (memoUpperOf tx) MEMO_SHAWTY.toList then
    shawtyPath env assetId tx s0
  else if microToAlgo tx.amount_micro < BUTKI_MIN_TIP_ALGO then .ok s0
  else loyaltyPath env assetId tx s0

/-! ## Replay (idempotency) lemmas for the individual reward paths -/

/-- Re-observing the same payment for the same order is always a no-op:
whatever the first settlement call did, a second call with the same order
reference and amount, on any state whose orders table is the result of the
first call, returns False and changes nothing. -/
theorem settle_replay_noop (now₁ now₂ : Int) (oid : Int) (f c : String)
    (amt : ℚ) (t₁ t₂ : String) (s s₂ : RewardState)
    (horders : s₂.orders = (settle_order_payment now₁ oid f c amt t₁ s).1.orders) :
    settle_order_payment now₂ oid f c amt t₂ s₂ = (s₂, false) := by
  simp only [settle_order_payment] at horders ⊢
  cases hf : s.orders.find? (orderFor oid f c) with
  | none =>
      simp only [hf] at horders
      rw [horders]
      simp only [hf]
  | some o =>
      simp only [hf] at horders
      by_cases hst : (o.status != ORDER_PENDING) = true
      · rw [if_pos hst] at horders
        dsimp only at horders
        rw [horders]
        simp only [hf]
        rw [if_pos hst]
      · rw [if_neg hst] at horders
        by_cases hamt : amt + SETTLE_EPSILON < o.total_algo
        · rw [if_pos hamt] at horders
          dsimp only at horders
          rw [horders]
          simp only [hf]
          rw [if_neg hst, if_pos hamt]
        · rw [if_neg hamt] at horders
          dsimp only at horders
          have hfind2 := find?_settle_map s.orders oid f c o
            { o with status := ORDER_PAID, tx_id := some t₁, paid_at := some now₁ }
            hf rfl rfl rfl
          rw [horders]
          simp only [hfind2]
          rw [if_pos (by decide)]

/-- Replaying Path 0 on any state whose orders table came out of the first
run leaves that state unchanged. -/
theorem orderPart_replay (now₁ now₂ : Int) (tx : TxRecord) (s s₂ : RewardState)
    (horders : s₂.orders = (orderPart now₁ tx s).orders) :
    orderPart now₂ tx s₂ = s₂ := by
  unfold orderPart at horders ⊢
  by_cases hsw : pyStartsWith (memoUpperOf tx) MEMO_ORDER.toList = true
  · rw [if_pos hsw] at horders ⊢
    cases hp : parseOrderId (memoUpperOf tx) with
    | none =>
        simp only [hp] at horders ⊢
    | some oid =>
        simp only [hp] at horders ⊢
        rw [settle_replay_noop now₁ now₂ oid tx.fan_wallet tx.creator_wallet
          (microToAlgo tx.amount_micro) tx.tx_id tx.tx_id s s₂ horders]
  · rw [if_neg hsw] at horders ⊢

/-- `record_tip` touches only the loyalty table and its journal. -/
theorem record_tip_frame (fan creator tx : String) (amountMicro : Nat)
    (s : RewardState) :
    (record_tip fan creator tx amountMicro s).1.memberships = s.memberships
      ∧ (record_tip fan creator tx amountMicro s).1.shawtyTokens = s.shawtyTokens
      ∧ (record_tip fan creator tx amountMicro s).1.orders = s.orders
      ∧ (record_tip fan creator tx amountMicro s).1.orderItems = s.orderItems
      ∧ (record_tip fan creator tx amountMicro s).1.products = s.products := by
  simp only [record_tip]
  repeat' split
  all_goals exact ⟨rfl, rfl, rfl, rfl, rfl⟩

/-- A journal hit makes `record_tip` a no-op that reports no badge. -/
theorem record_tip_replay (fan creator tx : String) (amountMicro : Nat)
    (s : RewardState)
    (hj : s.tipEvents.any (fun e => e.tx_id == tx) = true) :
    (record_tip fan creator tx amountMicro s).1 = s
      ∧ (record_tip fan creator tx amountMicro s).2.earned_badge = false := by
  unfold record_tip
  by_cases hq : microToAlgo amountMicro < BUTKI_MIN_TIP_ALGO
  · rw [if_pos hq]
    exact ⟨rfl, rfl⟩
  · rw [if_neg hq]
    simp only [hj, if_true]
    split <;> exact ⟨rfl, rfl⟩

/-- A below-threshold amount makes `record_tip` a no-op. -/
theorem record_tip_lowamount (fan creator tx : String) (amountMicro : Nat)
    (s : RewardState)
    (hq : microToAlgo amountMicro < BUTKI_MIN_TIP_ALGO) :
    record_tip fan creator tx amountMicro s = (s, ⟨0, false, 0⟩) := by
  unfold record_tip
  rw [if_pos hq]

/-- A fresh qualifying tip appends exactly its journal row. -/
theorem record_tip_fresh_tipEvents (fan creator tx : String)
    (amountMicro : Nat) (s : RewardState)
    (hq : ¬ microToAlgo amountMicro < BUTKI_MIN_TIP_ALGO)
    (hj : s.tipEvents.any (fun e => e.tx_id == tx) = false) :
    (record_tip fan creator tx amountMicro s).1.tipEvents
      = s.tipEvents ++ [⟨tx, fan, creator, amountMicro⟩] := by
  unfold record_tip
  rw [if_neg hq]
  simp only [hj, Bool.false_eq_true, if_false]
  split <;> rfl

/-- The membership table written by a successful purchase contains a row
carrying the purchase tx id. -/
theorem purchase_membership_any (now : Int) (fan creator : String)
    (assetId : Nat) (t : String) (amt : Nat) (ms ms2 : List MembershipRow)
    (e : Int) (b : Bool)
    (hok : purchase_membership now fan creator assetId (some t) amt ms
      = .ok (ms2, e, b)) :
    ms2.any (fun m => m.purchase_tx_id == some t) = true := by
  simp only [purchase_membership] at hok
  split at hok <;> split at hok <;>
    simp only [Except.ok.injEq, Prod.mk.injEq, reduceCtorEq] at hok
  · obtain ⟨h1, -, -⟩ := hok
    subst h1
    rw [List.any_append]
    simp
  · obtain ⟨h1, -, -⟩ := hok
    subst h1
    rw [List.any_append]
    simp

/-- The token table written by `register_purchase` with a purchase tx id
contains a row carrying it. -/
theorem register_purchase_any (assetId : Nat) (owner creator : String)
    (t : String) (amt : Nat) (toks : List ShawtyTokenRow) :
    ((register_purchase assetId owner creator (some t) amt toks).1).any
        (fun tok => tok.purchase_tx_id == some t) = true := by
  unfold register_purchase
  cases hf : toks.find? (fun tok => tok.purchase_tx_id == some t) with
  | some tok =>
      simp only [hf]
      rw [List.any_eq_true]
      refine ⟨tok, List.mem_of_find?_eq_some hf, ?_⟩
      exact @List.find?_some ShawtyTokenRow
        (fun tok => tok.purchase_tx_id == some t) tok toks hf
  | none =>
      simp only [hf]
      rw [List.any_append]
      simp

/-- Replaying the membership path of the router is a no-op, and the path
touches only the membership table. -/
theorem bauniPath_replay (env : RouteEnv) (now₁ now₂ : Int) (a₁ a₂ : Nat)
    (tx : TxRecord) (s s' : RewardState)
    (h : bauniPath env now₁ a₁ tx s = .ok s') :
    bauniPath env now₂ a₂ tx s' = .ok s'
      ∧ s'.orders = s.orders ∧ s'.tipEvents = s.tipEvents
      ∧ s'.shawtyTokens = s.shawtyTokens ∧ s'.loyalty = s.loyalty
      ∧ s'.orderItems = s.orderItems ∧ s'.products = s.products := by
  unfold bauniPath at h ⊢
  by_cases h1 : s.memberships.any (fun m => m.purchase_tx_id == some tx.tx_id) = true
  · rw [if_pos h1] at h
    simp only [Except.ok.injEq] at h
    subst h
    rw [if_pos h1]
    exact ⟨rfl, rfl, rfl, rfl, rfl, rfl, rfl⟩
  · rw [if_neg h1] at h
    by_cases h2 : microToAlgo tx.amount_micro < BAUNI_COST_ALGO
    · rw [if_pos h2] at h
      simp only [Except.ok.injEq] at h
      subst h
      rw [if_neg h1, if_pos h2]
      exact ⟨rfl, rfl, rfl, rfl, rfl, rfl, rfl⟩
    · rw [if_neg h2] at h
      by_cases h3 : (!(env.bauniTemplate tx.creator_wallet)) = true
      · rw [if_pos h3] at h
        simp only [Except.ok.injEq] at h
        subst h
        rw [if_neg h1, if_neg h2, if_pos h3]
        exact ⟨rfl, rfl, rfl, rfl, rfl, rfl, rfl⟩
      · rw [if_neg h3] at h
        cases hok : purchase_membership now₁ tx.fan_wallet tx.creator_wallet a₁
            (some tx.tx_id) tx.amount_micro s.memberships with
        | error u =>
            rw [hok] at h
            simp at h
        | ok r =>
            obtain ⟨ms2, e, b⟩ := r
            rw [hok] at h
            simp only [Except.ok.injEq] at h
            subst h
            have hany := purchase_membership_any now₁ tx.fan_wallet
              tx.creator_wallet a₁ tx.tx_id tx.amount_micro s.memberships
              ms2 e b hok
            rw [if_pos hany]
            exact ⟨rfl, rfl, rfl, rfl, rfl, rfl, rfl⟩

/-- Replaying the token path of the router is a no-op, and the path touches
only the token table. -/
theorem shawtyPath_replay (env : RouteEnv) (a₁ a₂ : Nat)
    (tx : TxRecord) (s s' : RewardState)
    (h : shawtyPath env a₁ tx s = .ok s') :
    shawtyPath env a₂ tx s' = .ok s'
      ∧ s'.orders = s.orders ∧ s'.tipEvents = s.tipEvents
      ∧ s'.memberships = s.memberships ∧ s'.loyalty = s.loyalty
      ∧ s'.orderItems = s.orderItems ∧ s'.products = s.products := by
  unfold shawtyPath at h ⊢
  by_cases h1 : s.shawtyTokens.any (fun t => t.purchase_tx_id == some tx.tx_id) = true
  · rw [if_pos h1] at h
    simp only [Except.ok.injEq] at h
    subst h
    rw [if_pos h1]
    exact ⟨rfl, rfl, rfl, rfl, rfl, rfl, rfl⟩
  · rw [if_neg h1] at h
    by_cases h2 : microToAlgo tx.amount_micro < SHAWTY_COST_ALGO
    · rw [if_pos h2] at h
      simp only [Except.ok.injEq] at h
      subst h
      rw [if_neg h1, if_pos h2]
      exact ⟨rfl, rfl, rfl, rfl, rfl, rfl, rfl⟩
    · rw [if_neg h2] at h
      by_cases h3 : (!(env.shawtyTemplate tx.creator_wallet)) = true
      · rw [if_pos h3] at h
        simp only [Except.ok.injEq] at h
        subst h
        rw [if_neg h1, if_neg h2, if_pos h3]
        exact ⟨rfl, rfl, rfl, rfl, rfl, rfl, rfl⟩
      · rw [if_neg h3] at h
        simp only [Except.ok.injEq] at h
        subst h
        rw [if_pos (register_purchase_any a₁ tx.fan_wallet tx.creator_wallet
          tx.tx_id tx.amount_micro s.shawtyTokens)]
        exact ⟨rfl, rfl, rfl, rfl, rfl, rfl, rfl⟩

/-- Replaying the loyalty path of the router is a no-op, and the path
touches only the loyalty table and its journal. -/
theorem loyaltyPath_replay (env : RouteEnv) (a₁ a₂ : Nat)
    (tx : TxRecord) (s s' : RewardState)
    (h : loyaltyPath env a₁ tx s = .ok s') :
    loyaltyPath env a₂ tx s' = .ok s'
      ∧ s'.orders = s.orders ∧ s'.memberships = s.memberships
      ∧ s'.shawtyTokens = s.shawtyTokens
      ∧ s'.orderItems = s.orderItems ∧ s'.products = s.products := by
  have replay_hit : ∀ (u : RewardState) (a : Nat),
      u.tipEvents.any (fun e => e.tx_id == tx.tx_id) = true →
      loyaltyPath env a tx u = .ok u := by
    intro u a hj
    obtain ⟨hfst, hbadge⟩ := record_tip_replay tx.fan_wallet tx.creator_wallet
      tx.tx_id tx.amount_micro u hj
    simp only [loyaltyPath]
    simp only [hbadge, Bool.false_eq_true, if_false, hfst]
  simp only [loyaltyPath] at h
  by_cases hq : microToAlgo tx.amount_micro < BUTKI_MIN_TIP_ALGO
  · rw [record_tip_lowamount tx.fan_wallet tx.creator_wallet tx.tx_id
      tx.amount_micro s hq] at h
    simp only [Bool.false_eq_true, if_false, Except.ok.injEq] at h
    subst h
    refine ⟨?_, rfl, rfl, rfl, rfl, rfl⟩
    simp only [loyaltyPath]
    rw [record_tip_lowamount tx.fan_wallet tx.creator_wallet tx.tx_id
      tx.amount_micro s hq]
    rfl
  · by_cases hj : s.tipEvents.any (fun e => e.tx_id == tx.tx_id) = true
    · obtain ⟨hfst, hbadge⟩ := record_tip_replay tx.fan_wallet tx.creator_wallet
        tx.tx_id tx.amount_micro s hj
      rw [hbadge] at h
      simp only [Bool.false_eq_true, if_false, hfst, Except.ok.injEq] at h
      subst h
      exact ⟨replay_hit s a₂ hj, rfl, rfl, rfl, rfl, rfl⟩
    · have hj' : s.tipEvents.any (fun e => e.tx_id == tx.tx_id) = false := by
        simpa using hj
      have htip := record_tip_fresh_tipEvents tx.fan_wallet tx.creator_wallet
        tx.tx_id tx.amount_micro s hq hj'
      have hframe := record_tip_frame tx.fan_wallet tx.creator_wallet
        tx.tx_id tx.amount_micro s
      have hany1 : (record_tip tx.fan_wallet tx.creator_wallet tx.tx_id
          tx.amount_micro s).1.tipEvents.any (fun e => e.tx_id == tx.tx_id)
            = true := by
        rw [htip, List.any_append]
        simp
      by_cases hbadge : (record_tip tx.fan_wallet tx.creator_wallet tx.tx_id
          tx.amount_micro s).2.earned_badge = true
      · rw [if_pos hbadge] at h
        by_cases htem : env.butkiTemplate tx.creator_wallet = true
        · rw [if_pos htem] at h
          simp only [Except.ok.injEq] at h
          subst h
          refine ⟨replay_hit _ a₂ hany1, ?_⟩
          exact ⟨hframe.2.2.1, hframe.1, hframe.2.1, hframe.2.2.2.1,
            hframe.2.2.2.2⟩
        · rw [if_neg htem] at h
          simp only [Except.ok.injEq] at h
          subst h
          exact ⟨replay_hit _ a₂ hany1,
            hframe.2.2.1, hframe.1, hframe.2.1, hframe.2.2.2.1,
            hframe.2.2.2.2⟩
      · rw [if_neg hbadge] at h
        simp only [Except.ok.injEq] at h
        subst h
        exact ⟨replay_hit _ a₂ hany1,
          hframe.2.2.1, hframe.1, hframe.2.1, hframe.2.2.2.1,
          hframe.2.2.2.2⟩

/-- Claim C1: all four reward paths are idempotent in the external event id.
Whatever a first routing of a payment record did — settling its order,
creating a membership, registering a token, or accruing loyalty — routing
the same record a second time (at any later time, with any fresh asset id)
leaves the committed reward-ledger state exactly unchanged. -/
theorem c1_reward_paths_idempotent :
    ∀ (env : RouteEnv) (now₁ now₂ : Int) (a₁ a₂ : Nat) (tx : TxRecord)
      (s s' : RewardState),
      routeTip env now₁ a₁ tx s = .ok s' →
      routeTip env now₂ a₂ tx s' = .ok s' := by
  intro env n₁ n₂ a₁ a₂ tx s s' h
  simp only [routeTip] at h ⊢
  by_cases hb : pyStartsWith (memoUpperOf tx) MEMO_BAUNI.toList = true
  · rw [if_pos hb] at h ⊢
    obtain ⟨hrep, ho, -⟩ :=
      bauniPath_replay env n₁ n₂ a₁ a₂ tx (orderPart n₁ tx s) s' h
    rw [orderPart_replay n₁ n₂ tx s s' ho]
    exact hrep
  · rw [if_neg hb] at h ⊢
    by_cases hs : pyStartsWith (memoUpperOf tx) MEMO_SHAWTY.toList = true
    · rw [if_pos hs] at h ⊢
      obtain ⟨hrep, ho, -⟩ :=
        shawtyPath_replay env a₁ a₂ tx (orderPart n₁ tx s) s' h
      rw [orderPart_replay n₁ n₂ tx s s' ho]
      exact hrep
    · rw [if_neg hs] at h ⊢
      by_cases hq : microToAlgo tx.amount_micro < BUTKI_MIN_TIP_ALGO
      · rw [if_pos hq] at h ⊢
        simp only [Except.ok.injEq] at h
        subst h
        rw [orderPart_replay n₁ n₂ tx s _ rfl]
      · rw [if_neg hq] at h ⊢
        obtain ⟨hrep, ho, -⟩ :=
          loyaltyPath_replay env a₁ a₂ tx (orderPart n₁ tx s) s' h
        rw [orderPart_replay n₁ n₂ tx s s' ho]
        exact hrep

/-- Witness for C1: a first qualifying 0.5 ALGO tip accrues loyalty; the
replay of the same tx id (later, with another asset id) is a no-op. -/
theorem c1_reward_paths_idempotent_witness :
    routeTip ⟨fun _ => true, fun _ => true, fun _ => true⟩ 0 1
        ⟨"t1", "F", "C", 500000, some "hi", false⟩ emptyRewardState
      = .ok { emptyRewardState with
          loyalty := [⟨"F", "C", 1, 500000, 0, none⟩]
          tipEvents := [⟨"t1", "F", "C", 500000⟩] }
      ∧ routeTip ⟨fun _ => true, fun _ => true, fun _ => true⟩ 9 2
          ⟨"t1", "F", "C", 500000, some "hi", false⟩
          { emptyRewardState with
            loyalty := [⟨"F", "C", 1, 500000, 0, none⟩]
            tipEvents := [⟨"t1", "F", "C", 500000⟩] }
        = .ok { emptyRewardState with
            loyalty := [⟨"F", "C", 1, 500000, 0, none⟩]
            tipEvents := [⟨"t1", "F", "C", 500000⟩] } := by
  have h1 : routeTip ⟨fun _ => true, fun _ => true, fun _ => true⟩ 0 1
      ⟨"t1", "F", "C", 500000, some "hi", false⟩ emptyRewardState
      = .ok { emptyRewardState with
          loyalty := [⟨"F", "C", 1, 500000, 0, none⟩]
          tipEvents := [⟨"t1", "F", "C", 500000⟩] } := by
    norm_num [routeTip, orderPart, memoUpperOf, pyStrip, pyUpper, pyStartsWith,
      bauniPath, shawtyPath, loyaltyPath, record_tip, microToAlgo,
      BUTKI_MIN_TIP_ALGO, BAUNI_COST_ALGO, SHAWTY_COST_ALGO, MEMO_ORDER,
      MEMO_BAUNI, MEMO_SHAWTY, bumpLoyalty, ensureLoyaltyRow, baseLoyaltyRow,
      loyaltyFor, loyaltyBump, BUTKI_BADGE_INTERVAL, emptyRewardState]
    decide
  exact ⟨h1, c1_reward_paths_idempotent _ 0 9 1 2 _ _ _ h1⟩

/-! ## Router decision structure (claim C7)

`routeDecision` restates the dispatch decision of `route_tip` as a pure
classifier in the spec's terms: an optional order reference (evaluated
first, never short-circuiting) and at most one primary reward path chosen
by memo tag and amount threshold. -/

inductive RoutePath where
  | bauni
  | shawty
  | loyalty
  | noReward
deriving DecidableEq, Repr

/-- The router's decision as a function of the memo and amount only. -/
def routeDecision (memo : Option String) (amountMicro : Nat) :
    Option Int × RoutePath :=
  let memoUpper := pyUpper (pyStrip ((memo.getD "").toList))
  let amountAlgo := microToAlgo amountMicro
  (if pyStartsWith memoUpper MEMO_ORDER.toList then parseOrderId memoUpper
   else none,
   if pyStartsWith memoUpper MEMO_BAUNI.toList then
     (if amountAlgo < BAUNI_COST_ALGO then RoutePath.noReward else RoutePath.bauni)
   else if pyStartsWith memoUpper MEMO_SHAWTY.toList then
     (if amountAlgo < SHAWTY_COST_ALGO then RoutePath.noReward else RoutePath.shawty)
   else if amountAlgo < BUTKI_MIN_TIP_ALGO then RoutePath.noReward
   else RoutePath.loyalty)

/-- The effect of the order component of the decision. -/
def applyOrderRef (now : Int) (tx : TxRecord) (oref : Option Int)
    (s : RewardState) : RewardState :=
  match oref with
  | some oid =>
      (settle_order_payment now oid tx.fan_wallet tx.creator_wallet
        (microToAlgo tx.amount_micro) tx.tx_id s).1
  | none => s

/-- The effect of the primary component of the decision. -/
def applyPrimaryPath (env : RouteEnv) (now : Int) (assetId : Nat)
    (tx : TxRecord) : RoutePath → RewardState → Except Unit RewardState
  | .bauni, s => bauniPath env now assetId tx s
  | .shawty, s => shawtyPath env assetId tx s
  | .loyalty, s => loyaltyPath env assetId tx s
  | .noReward, s => .ok s

/-- Path 0 is the effect of the decision's order component. -/
theorem orderPart_eq_apply (now : Int) (tx : TxRecord) (s : RewardState) :
    orderPart now tx s
      = applyOrderRef now tx
          (if pyStartsWith (memoUpperOf tx) MEMO_ORDER.toList
           then parseOrderId (memoUpperOf tx) else none) s := by
  unfold orderPart applyOrderRef
  by_cases h : pyStartsWith (memoUpperOf tx) MEMO_ORDER.toList = true
  · rw [if_pos h, if_pos h]
  · rw [if_neg h, if_neg h]

/-- A below-threshold membership purchase is dropped with no state change. -/
theorem bauniPath_lowamount (env : RouteEnv) (now : Int) (assetId : Nat)
    (tx : TxRecord) (s : RewardState)
    (h : microToAlgo tx.amount_micro < BAUNI_COST_ALGO) :
    bauniPath env now assetId tx s = .ok s := by
  unfold bauniPath
  by_cases h1 : s.memberships.any (fun m => m.purchase_tx_id == some tx.tx_id) = true
  · rw [if_pos h1]
  · rw [if_neg h1, if_pos h]

/-- A below-threshold token purchase is dropped with no state change. -/
theorem shawtyPath_lowamount (env : RouteEnv) (assetId : Nat)
    (tx : TxRecord) (s : RewardState)
    (h : microToAlgo tx.amount_micro < SHAWTY_COST_ALGO) :
    shawtyPath env assetId tx s = .ok s := by
  unfold shawtyPath
  by_cases h1 : s.shawtyTokens.any (fun t => t.purchase_tx_id == some tx.tx_id) = true
  · rw [if_pos h1]
  · rw [if_neg h1, if_pos h]

/-- Claim C7: the router evaluates memo tags on the stripped, upper-cased
memo (case-insensitively), in the priority order ORDER / MEMBERSHIP:BAUNI /
PURCHASE:SHAWTY / default loyalty; it factorises into the order-settlement
effect applied first (never short-circuiting the rest) followed by the
effect of at most one primary path; amounts below a matched path's
threshold yield no primary path at all (no partial credit); and the
decision depends only on the normalised memo and the amount. -/
theorem c7_router_priority :
    (∀ (env : RouteEnv) (now : Int) (assetId : Nat) (tx : TxRecord)
        (s : RewardState),
        routeTip env now assetId tx s
          = applyPrimaryPath env now assetId tx
              (routeDecision tx.memo tx.amount_micro).2
              (applyOrderRef now tx (routeDecision tx.memo tx.amount_micro).1 s))
    ∧ (∀ (m₁ m₂ : Option String) (amountMicro : Nat),
        pyUpper (pyStrip ((m₁.getD "").toList))
            = pyUpper (pyStrip ((m₂.getD "").toList)) →
        routeDecision m₁ amountMicro = routeDecision m₂ amountMicro)
    ∧ (∀ (memo : Option String) (amountMicro : Nat),
        (pyStartsWith (pyUpper (pyStrip ((memo.getD "").toList)))
            MEMO_ORDER.toList = true →
          (routeDecision memo amountMicro).1
            = parseOrderId (pyUpper (pyStrip ((memo.getD "").toList))))
        ∧ (pyStartsWith (pyUpper (pyStrip ((memo.getD "").toList)))
            MEMO_ORDER.toList = false →
          (routeDecision memo amountMicro).1 = none)
        ∧ (pyStartsWith (pyUpper (pyStrip ((memo.getD "").toList)))
            MEMO_BAUNI.toList = true →
          (routeDecision memo amountMicro).2
            = (if microToAlgo amountMicro < BAUNI_COST_ALGO
               then RoutePath.noReward else RoutePath.bauni))
        ∧ (pyStartsWith (pyUpper (pyStrip ((memo.getD "").toList)))
              MEMO_BAUNI.toList = false →
           pyStartsWith (pyUpper (pyStrip ((memo.getD "").toList)))
              MEMO_SHAWTY.toList = true →
          (routeDecision memo amountMicro).2
            = (if microToAlgo amountMicro < SHAWTY_COST_ALGO
               then RoutePath.noReward else RoutePath.shawty))
        ∧ (pyStartsWith (pyUpper (pyStrip ((memo.getD "").toList)))
              MEMO_BAUNI.toList = false →
           pyStartsWith (pyUpper (pyStrip ((memo.getD "").toList)))
              MEMO_SHAWTY.toList = false →
          (routeDecision memo amountMicro).2
            = (if microToAlgo amountMicro < BUTKI_MIN_TIP_ALGO
               then RoutePath.noReward else RoutePath.loyalty))) := by
  refine ⟨?_, ?_, ?_⟩
  · intro env now assetId tx s
    simp only [routeTip, routeDecision, applyPrimaryPath, memoUpperOf]
    rw [orderPart_eq_apply]
    simp only [memoUpperOf]
    by_cases hb : pyStartsWith (pyUpper (pyStrip ((tx.memo.getD "").toList)))
        MEMO_BAUNI.toList = true
    · rw [if_pos hb, if_pos hb]
      by_cases hq : microToAlgo tx.amount_micro < BAUNI_COST_ALGO
      · rw [if_pos hq]
        dsimp only
        exact bauniPath_lowamount env now assetId tx _ hq
      · rw [if_neg hq]
    · rw [if_neg hb, if_neg hb]
      by_cases hs : pyStartsWith (pyUpper (pyStrip ((tx.memo.getD "").toList)))
          MEMO_SHAWTY.toList = true
      · rw [if_pos hs, if_pos hs]
        by_cases hq : microToAlgo tx.amount_micro < SHAWTY_COST_ALGO
        · rw [if_pos hq]
          dsimp only
          exact shawtyPath_lowamount env assetId tx _ hq
        · rw [if_neg hq]
      · rw [if_neg hs, if_neg hs]
        by_cases hq : microToAlgo tx.amount_micro < BUTKI_MIN_TIP_ALGO
        · rw [if_pos hq, if_pos hq]
        · rw [if_neg hq, if_neg hq]
  · intro m₁ m₂ amountMicro h
    simp only [routeDecision, h]
  · intro memo amountMicro
    refine ⟨?_, ?_, ?_, ?_, ?_⟩
    · intro h
      simp only [routeDecision, h, if_true]
    · intro h
      simp only [routeDecision, h, Bool.false_eq_true, if_false]
    · intro h
      simp only [routeDecision, h, if_true]
    · intro h1 h2
      simp only [routeDecision, h1, h2, Bool.false_eq_true, if_false, if_true]
    · intro h1 h2
      simp only [routeDecision, h1, h2, Bool.false_eq_true, if_false]

/-- Witness for C7: a membership-tagged memo in lower case with an amount
below 5 ALGO decides to no reward path, and the factorisation applies to a
concrete loyalty routing. -/
theorem c7_router_priority_witness :
    (pyStartsWith (pyUpper (pyStrip (((some "membership:bauni x" : Option String).getD "").toList)))
        MEMO_BAUNI.toList = true)
      ∧ (routeDecision (some "membership:bauni x") 4000000).2
        = (if microToAlgo 4000000 < BAUNI_COST_ALGO
           then RoutePath.noReward else RoutePath.bauni) := by
  refine ⟨by decide, ?_⟩
  exact (c7_router_priority.2.2 (some "membership:bauni x") 4000000).2.2.1
    (by decide)

end RIFT
